import Mathlib

/-!
# VSFS journal tool: `Project/journal_ai.c`

A shallow embedding of the journaled file-creation tool and the properties of
its `create` and `install` commands.

Modelling conventions.

* A block buffer (`uint8_t buf[4096]`) is a function from byte offsets to
  naturals; a byte is always read through `byte`, which reduces modulo 256, so
  every statement quantified over `Block` covers every real buffer.
* The image is a function from block numbers to blocks.  The image is taken to
  hold every block the program addresses: the `exit(1)` branches of
  `read_block_raw` and `write_block_raw` (seek failure, short transfer) are not
  part of the model.
* Multi-byte fields are little-endian, as on the machine the tool is built for.
* `uint32_t` arithmetic is written with an explicit `% U32`.
* An access outside a 4096-byte stack buffer has no defined behaviour in C; the
  model reports it as the outcome `undefined`.
* `time(NULL)` is the parameter `now`.
-/

namespace Journal

/-! ## Constants and sizes -/

abbrev BLOCK_SIZE : Nat := 4096
abbrev FS_MAGIC : Nat := 0x56534653
abbrev JOURNAL_MAGIC : Nat := 0x4A524E4C
abbrev NAME_LEN : Nat := 28
abbrev INODES_PER_BLOCK : Nat := BLOCK_SIZE / 128
abbrev DIRENTS_PER_BLOCK : Nat := BLOCK_SIZE / 32
abbrev REC_DATA : Nat := 1
abbrev REC_COMMIT : Nat := 2

/-- Modulus of `uint32_t` arithmetic. -/
abbrev U32 : Nat := 4294967296

/-- Value of `sizeof(struct inode)`: 2+2+4+8*4+4+4 bytes of fields and the padding up to 128. -/
abbrev sizeof_inode : Nat := (2 + 2 + 4 + 8 * 4 + 4 + 4) + (128 - (2 + 2 + 4 + 8 * 4 + 4 + 4))

/-- Value of `sizeof(struct dirent)`: a `uint32_t` and `char name[NAME_LEN]`. -/
abbrev sizeof_dirent : Nat := 4 + NAME_LEN

/-- Value of `sizeof(struct journal_header)` as declared in `journal_ai.c`: two
`uint32_t` fields followed by `uint8_t _pad[BLOCK_SIZE - 8]`. -/
abbrev sizeof_journal_header : Nat := 4 + 4 + (BLOCK_SIZE - 8)

/-- Value of `sizeof(struct rec_header)`: two `uint16_t` fields. -/
abbrev sizeof_rec_header : Nat := 2 + 2

/-- Value of `sizeof(struct data_record)`: header, `block_no`, `data[BLOCK_SIZE]`. -/
abbrev sizeof_data_record : Nat := sizeof_rec_header + 4 + BLOCK_SIZE

/-- Value of `sizeof(struct commit_record)`: the header only. -/
abbrev sizeof_commit_record : Nat := sizeof_rec_header

/-! ## Memory and the block device -/

/-- A byte buffer, indexed by offset. -/
abbrev Block := Nat → Nat

/-- The disk image, indexed by block number. -/
abbrev Image := Nat → Block

/-- The byte stored at offset `i`. -/
def byte (b : Block) (i : Nat) : Nat := b i % 256

/-- A little-endian `uint16_t` field at offset `off`. -/
def le16 (b : Block) (off : Nat) : Nat := byte b off + 256 * byte b (off + 1)

/-- A little-endian `uint32_t` field at offset `off`. -/
def le32 (b : Block) (off : Nat) : Nat :=
  byte b off + 256 * byte b (off + 1) + 65536 * byte b (off + 2) + 16777216 * byte b (off + 3)

/-- The C call `memcpy(dst + off, src, n)`. -/
def memcpy (dst : Block) (off : Nat) (src : Block) (n : Nat) : Block :=
  fun i => if off ≤ i ∧ i < off + n then src (i - off) else dst i

/-- The C call `memset(dst + off, c, n)`. -/
def memset (dst : Block) (off : Nat) (c : Nat) (n : Nat) : Block :=
  fun i => if off ≤ i ∧ i < off + n then c % 256 else dst i

/-- The object representation of an unsigned value: byte `k` of `v`, least significant first. -/
def le_bytes (v : Nat) : Block := fun k => (v / 256 ^ k) % 256

/-- Assignment to a `uint16_t` field at offset `off`. -/
def store16 (b : Block) (off : Nat) (v : Nat) : Block := memcpy b off (le_bytes (v % 65536)) 2

/-- Assignment to a `uint32_t` field at offset `off`. -/
def store32 (b : Block) (off : Nat) (v : Nat) : Block := memcpy b off (le_bytes (v % U32)) 4

/-- A buffer of zero bytes. -/
def zero_block : Block := fun _ => 0

/-- The view `buf + off` of a buffer. -/
def offset_ptr (b : Block) (off : Nat) : Block := fun i => b (off + i)

def read_block_raw (img : Image) (block_num : Nat) : Block := img block_num

def write_block_raw (img : Image) (block_num : Nat) (buffer : Block) : Image :=
  fun n => if n = block_num then buffer else img n

structure superblock where
  magic : Nat
  block_size : Nat
  total_blocks : Nat
  inode_count : Nat
  journal_block : Nat
  inode_bitmap : Nat
  data_bitmap : Nat
  inode_start : Nat
  data_start : Nat

/-- The fields of the superblock found in the first 36 bytes of block 0. -/
def read_superblock (img : Image) : superblock :=
  let buf := read_block_raw img 0
  { magic := le32 buf 0, block_size := le32 buf 4, total_blocks := le32 buf 8,
    inode_count := le32 buf 12, journal_block := le32 buf 16, inode_bitmap := le32 buf 20,
    data_bitmap := le32 buf 24, inode_start := le32 buf 28, data_start := le32 buf 32 }

def read_bitmap_block (img : Image) (bitmap_block_no : Nat) : Block :=
  read_block_raw img bitmap_block_no

def write_bitmap_block (img : Image) (bitmap_block_no : Nat) (bitmap_in : Block) : Image :=
  write_block_raw img bitmap_block_no bitmap_in

/-! ## Bitmaps -/

/-- Returns 1 when bit `index` is set and 0 otherwise.  Every caller passes a
non-negative index, so the `int` parameter is a natural number here. -/
def check_bit (bitmap : Block) (index : Nat) : Nat :=
  let byte_idx := index / 8
  let bit_idx := index % 8
  if byte bitmap byte_idx &&& (1 <<< bit_idx) ≠ 0 then 1 else 0

def set_bit (bitmap : Block) (index : Nat) : Block :=
  let byte_idx := index / 8
  let bit_idx := index % 8
  fun i => if i = byte_idx then (byte bitmap byte_idx ||| (1 <<< bit_idx)) % 256 else bitmap i

def clear_bit (bitmap : Block) (index : Nat) : Block :=
  let byte_idx := index / 8
  let bit_idx := index % 8
  fun i => if i = byte_idx then byte bitmap byte_idx &&& (255 ^^^ (1 <<< bit_idx)) else bitmap i

/-- The scan `for (i = start; i < start + remaining; i++) if (!check_bit(bitmap, i)) return i;`
over a 4096-byte bitmap, followed by `return -1`.  The result is `none` when
the scan reads a byte outside the bitmap. -/
def scan_free_bit (bitmap : Block) : Nat → Nat → Option Int
  | 0, _ => some (-1)
  | remaining + 1, i =>
    if BLOCK_SIZE ≤ i / 8 then none
    else if check_bit bitmap i = 0 then some (i : Int)
    else scan_free_bit bitmap remaining (i + 1)

/-- The function `find_free_bit` applied to a 4096-byte bitmap; a negative
`size_in_bits` makes the loop body unreachable. -/
def find_free_bit (bitmap : Block) (size_in_bits : Int) : Option Int :=
  scan_free_bit bitmap size_in_bits.toNat 0

/-! ## Metadata views -/

/-- The function `read_inode`: the 128 bytes of inode `inum`. -/
def read_inode (sb : superblock) (img : Image) (inum : Nat) : Block :=
  let inodes_per_block := BLOCK_SIZE / sizeof_inode
  let block_index := inum / inodes_per_block
  let offset_in_block := inum % inodes_per_block
  let block_buf := read_block_raw img ((sb.inode_start + block_index) % U32)
  memcpy zero_block 0 (offset_ptr block_buf (offset_in_block * sizeof_inode)) sizeof_inode

def write_inode_to_buffer (block_buf : Block) (offset_in_block : Nat) (inode_in : Block) : Block :=
  memcpy block_buf (offset_in_block * sizeof_inode) inode_in sizeof_inode

/-- Field `type` of a `struct inode`. -/
def inode_type (ino : Block) : Nat := le16 ino 0

/-- Field `links` of a `struct inode`. -/
def inode_links (ino : Block) : Nat := le16 ino 2

/-- Field `size` of a `struct inode`. -/
def inode_size (ino : Block) : Nat := le32 ino 4

/-- Field `direct[j]` of a `struct inode`. -/
def inode_direct (ino : Block) (j : Nat) : Nat := le32 ino (8 + 4 * j)

/-- Field `ctime` of a `struct inode`. -/
def inode_ctime (ino : Block) : Nat := le32 ino 40

/-- Field `mtime` of a `struct inode`. -/
def inode_mtime (ino : Block) : Nat := le32 ino 44

/-- The function `find_free_inode` applied to a 4096-byte bitmap. -/
def find_free_inode (sb : superblock) (inode_bitmap : Block) : Option Int :=
  scan_free_bit inode_bitmap sb.inode_count 0

/-- Field `entries[i].inode` of a directory block. -/
def dirent_inode (dir_block : Block) (i : Nat) : Nat := le32 dir_block (i * sizeof_dirent)

/-- The array `entries[i].name` of a directory block. -/
def dirent_name (dir_block : Block) (i : Nat) : Block := offset_ptr dir_block (i * sizeof_dirent + 4)

/-- The loop of `find_free_dirent_slot` from slot `i` with `remaining` slots to go. -/
def scan_free_dirent (dir_block : Block) : Nat → Nat → Int
  | 0, _ => -1
  | remaining + 1, i =>
    if dirent_inode dir_block i = 0 then (i : Int)
    else scan_free_dirent dir_block remaining (i + 1)

def find_free_dirent_slot (dir_block : Block) : Int :=
  scan_free_dirent dir_block DIRENTS_PER_BLOCK 0

/-- A C string given by its bytes; the terminating NUL follows the list. -/
def cstr (s : List Nat) : Block := fun k => s.getD k 0

/-- The C call `strlen(s)`. -/
def strlen (s : List Nat) : Nat := (s.takeWhile (fun c => c % 256 ≠ 0)).length

/-- The C call `strncmp(a + k, b + k, n)`: the difference of the first pair of
differing bytes among the first `n`, none being compared after a NUL. -/
def strncmp_from (a b : Block) : Nat → Nat → Int
  | 0, _ => 0
  | n + 1, k =>
    if byte a k ≠ byte b k then (byte a k : Int) - (byte b k : Int)
    else if byte a k = 0 then 0
    else strncmp_from a b n (k + 1)

def strncmp (a b : Block) (n : Nat) : Int := strncmp_from a b n 0

/-- The bytes `strncpy(dst, src, n)` leaves in `dst[0..n)`: the string, then NUL padding. -/
def strncpy (dst : Block) (off : Nat) (src : List Nat) (n : Nat) : Block :=
  fun i => if off ≤ i ∧ i < off + n then (if i - off < strlen src then byte (cstr src) (i - off) else 0)
           else dst i

/-- The loop of `find_dirent_by_name` from slot `i` with `remaining` slots to go. -/
def scan_dirent_by_name (dir_block : Block) (name : List Nat) : Nat → Nat → Int
  | 0, _ => -1
  | remaining + 1, i =>
    if dirent_inode dir_block i ≠ 0 ∧ strncmp (dirent_name dir_block i) (cstr name) NAME_LEN = 0
    then (i : Int)
    else scan_dirent_by_name dir_block name remaining (i + 1)

def find_dirent_by_name (dir_block : Block) (name : List Nat) : Int :=
  scan_dirent_by_name dir_block name DIRENTS_PER_BLOCK 0

/-! ## Journal -/

/-- A `struct journal_header` object: `sizeof_journal_header` bytes, the two
fields and the padding.  `read_journal_header` fills it with a whole block. -/
def read_journal_header (sb : superblock) (img : Image) : Block :=
  read_block_raw img sb.journal_block

def write_journal_header (sb : superblock) (img : Image) (jh : Block) : Image :=
  write_block_raw img sb.journal_block jh

/-- Field `magic` of a `struct journal_header`. -/
def jh_magic (jh : Block) : Nat := le32 jh 0

/-- Field `nbytes_used` of a `struct journal_header`. -/
def jh_nbytes_used (jh : Block) : Nat := le32 jh 4

/-- Assignment to field `nbytes_used` of a `struct journal_header`. -/
def jh_set_nbytes_used (jh : Block) (v : Nat) : Block := store32 jh 4 v

/-- Field `type` of the record header at `journal_buf + off`. -/
def rec_type (journal_buf : Block) (off : Nat) : Nat := le16 journal_buf off

/-- Field `size` of the record header at `journal_buf + off`. -/
def rec_size (journal_buf : Block) (off : Nat) : Nat := le16 journal_buf (off + 2)

/-- Field `block_no` of the data record at `journal_buf + off`. -/
def rec_block_no (journal_buf : Block) (off : Nat) : Nat := le32 journal_buf (off + 4)

/-- Array `data` of the data record at `journal_buf + off`. -/
def rec_data (journal_buf : Block) (off : Nat) : Block := offset_ptr journal_buf (off + 8)

/-- The `struct data_record` object built by `append_data_record`. -/
def data_record (record_size dest_block : Nat) (block_data : Block) : Block :=
  let r := store16 zero_block 0 REC_DATA
  let r := store16 r 2 record_size
  let r := store32 r 4 dest_block
  memcpy r 8 block_data BLOCK_SIZE

/-- The `struct commit_record` object built by `append_commit_record`. -/
def commit_record (record_size : Nat) : Block :=
  let r := store16 zero_block 0 REC_COMMIT
  store16 r 2 record_size

/-- What an append function leaves behind: its return value, the header object
it was handed and the image; or no defined behaviour. -/
inductive AppendResult where
  | ret (code : Int) (jh : Block) (img : Image)
  | undefined

def append_data_record (sb : superblock) (jh : Block) (img : Image)
    (dest_block : Nat) (block_data : Block) : AppendResult :=
  let record_size := sizeof_data_record
  let journal_capacity := BLOCK_SIZE
  if (jh_nbytes_used jh + record_size) % U32 > journal_capacity then
    .ret (-1) jh img
  else
    let record := data_record record_size dest_block block_data
    let journal_buf := read_block_raw img sb.journal_block
    -- memcpy(journal_buf + jh->nbytes_used, &rec, record_size) must stay inside journal_buf
    if BLOCK_SIZE < jh_nbytes_used jh + record_size then .undefined
    else
      let journal_buf := memcpy journal_buf (jh_nbytes_used jh) record record_size
      let jh := jh_set_nbytes_used jh ((jh_nbytes_used jh + record_size) % U32)
      let journal_buf := memcpy journal_buf 0 jh sizeof_journal_header
      .ret 0 jh (write_block_raw img sb.journal_block journal_buf)

def append_commit_record (sb : superblock) (jh : Block) (img : Image) : AppendResult :=
  let record_size := sizeof_commit_record
  let journal_capacity := BLOCK_SIZE
  if (jh_nbytes_used jh + record_size) % U32 > journal_capacity then
    .ret (-1) jh img
  else
    let record := commit_record record_size
    let journal_buf := read_block_raw img sb.journal_block
    -- memcpy(journal_buf + jh->nbytes_used, &rec, record_size) must stay inside journal_buf
    if BLOCK_SIZE < jh_nbytes_used jh + record_size then .undefined
    else
      let journal_buf := memcpy journal_buf (jh_nbytes_used jh) record record_size
      let jh := jh_set_nbytes_used jh ((jh_nbytes_used jh + record_size) % U32)
      let journal_buf := memcpy journal_buf 0 jh sizeof_journal_header
      .ret 0 jh (write_block_raw img sb.journal_block journal_buf)

/-! ## Commands -/

/-- The message a command ends on, named by the error kind it reports. -/
inductive Status where
  /-- Either "created successfully (pending install)" or "installed and cleared successfully". -/
  | Success
  /-- "Filename too long". -/
  | NameTooLong
  /-- "Root inode is not a directory". -/
  | NotADirectory
  /-- "File already exists". -/
  | AlreadyExists
  /-- "Root directory is full". -/
  | DirFull
  /-- "No free inodes available". -/
  | NoFreeInode
  /-- "Journal full: cannot append". -/
  | JournalFull
  /-- Either "Invalid journal magic" or "Unknown record type". -/
  | CorruptJournal
  /-- "Journal is empty, nothing to install". -/
  | Empty
  /-- "No commit record found, transaction incomplete". -/
  | IncompleteTransaction
  deriving DecidableEq, Repr

/-- How a command ends: it returns `code` having printed `status` and left the
image `img`; or it runs into an access with no defined behaviour; or it loops
forever. -/
inductive Outcome where
  | returned (code : Int) (status : Status) (img : Image)
  | undefined
  | diverges

/-- The return value, when the command returns. -/
def Outcome.code : Outcome → Option Int
  | .returned c _ _ => some c
  | _ => none

/-- The message, when the command returns. -/
def Outcome.status : Outcome → Option Status
  | .returned _ s _ => some s
  | _ => none

/-- The image left behind, when the command returns. -/
def Outcome.image : Outcome → Option Image
  | .returned _ _ img => some img
  | _ => none

/-- The `struct inode` object `do_create` builds for the new file. -/
def new_file_inode (now : Nat) : Block :=
  let new_inode := memset zero_block 0 0 sizeof_inode
  let new_inode := store16 new_inode 0 1
  let new_inode := store16 new_inode 2 1
  let new_inode := store32 new_inode 4 0
  let new_inode := store32 new_inode 40 (now % U32)
  store32 new_inode 44 (inode_ctime new_inode)

/-- The buffer `new_inode_bitmap` of `do_create`. -/
def staged_inode_bitmap (inode_bitmap : Block) (new_inum : Nat) : Block :=
  let new_inode_bitmap := memcpy zero_block 0 inode_bitmap BLOCK_SIZE
  set_bit new_inode_bitmap new_inum

/-- The buffer `inode_block` of `do_create` after `write_inode_to_buffer`. -/
def staged_inode_block (sb : superblock) (img : Image) (new_inum : Nat) (now : Nat) : Block :=
  let inodes_per_block := BLOCK_SIZE / sizeof_inode
  let inode_block_index := new_inum / inodes_per_block
  let inode_offset := new_inum % inodes_per_block
  let inode_block_num := (sb.inode_start + inode_block_index) % U32
  let inode_block := read_block_raw img inode_block_num
  write_inode_to_buffer inode_block inode_offset (new_file_inode now)

/-- The buffer `new_dir_block` of `do_create`. -/
def staged_dir_block (dir_block : Block) (slot : Nat) (new_inum : Nat) (filename : List Nat) : Block :=
  let new_dir_block := memcpy zero_block 0 dir_block BLOCK_SIZE
  let new_dir_block := store32 new_dir_block (slot * sizeof_dirent) new_inum
  let new_dir_block := strncpy new_dir_block (slot * sizeof_dirent + 4) filename (NAME_LEN - 1)
  memset new_dir_block (slot * sizeof_dirent + 4 + (NAME_LEN - 1)) 0 1

/-- The statement `if (append(...) < 0) return -1;` followed by the rest `k` of
`do_create`: a negative return value ends the command (the append function
has printed "Journal full"). -/
def AppendResult.and_then (r : AppendResult) (k : Block → Image → Outcome) : Outcome :=
  match r with
  | .undefined => .undefined
  | .ret c jh img => if c < 0 then .returned (-1) .JournalFull img else k jh img

/-- The journal writes of `do_create`, from `read_journal_header` on. -/
def write_to_journal (sb : superblock) (img : Image) (new_inode_bitmap : Block)
    (inode_block_num : Nat) (inode_block : Block) (root_data_block : Nat)
    (new_dir_block : Block) : Outcome :=
  let jh := read_journal_header sb img
  if jh_magic jh ≠ JOURNAL_MAGIC then .returned (-1) .CorruptJournal img
  else
    let jh := jh_set_nbytes_used jh sizeof_journal_header
    (append_data_record sb jh img sb.inode_bitmap new_inode_bitmap).and_then fun jh img =>
    (append_data_record sb jh img inode_block_num inode_block).and_then fun jh img =>
    (append_data_record sb jh img root_data_block new_dir_block).and_then fun jh img =>
    (append_commit_record sb jh img).and_then fun _ img =>
    .returned 0 .Success img

def do_create (sb : superblock) (img : Image) (filename : List Nat) (now : Nat) : Outcome :=
  if strlen filename ≥ NAME_LEN then .returned (-1) .NameTooLong img
  else
    let inode_bitmap := read_bitmap_block img sb.inode_bitmap
    let root_inode := read_inode sb img 0
    if inode_type root_inode ≠ 2 then .returned (-1) .NotADirectory img
    else
      let root_data_block := inode_direct root_inode 0
      let dir_block := read_block_raw img root_data_block
      if find_dirent_by_name dir_block filename ≥ 0 then .returned (-1) .AlreadyExists img
      else
        let slot := find_free_dirent_slot dir_block
        if slot < 0 then .returned (-1) .DirFull img
        else
          match find_free_inode sb inode_bitmap with
          | none => .undefined
          | some new_inum =>
            if new_inum < 0 then .returned (-1) .NoFreeInode img
            else
              let new_inode_bitmap := staged_inode_bitmap inode_bitmap new_inum.toNat
              let inodes_per_block := BLOCK_SIZE / sizeof_inode
              let inode_block_index := new_inum.toNat / inodes_per_block
              let inode_block_num := (sb.inode_start + inode_block_index) % U32
              let inode_block := staged_inode_block sb img new_inum.toNat now
              let new_dir_block := staged_dir_block dir_block slot.toNat new_inum.toNat filename
              write_to_journal sb img new_inode_bitmap inode_block_num inode_block
                root_data_block new_dir_block

/-- How the first loop of `do_install` ends. -/
inductive ScanResult where
  | commit_found (data_records : Nat)
  | no_commit (data_records : Nat)
  | unknown_type
  | undefined
  | out_of_fuel
  deriving DecidableEq, Repr

/-- The first loop of `do_install` (validate and count records) from
`temp_offset`, for at most `fuel` iterations. -/
def first_pass (journal_buf : Block) (nbytes_used : Nat) : Nat → Nat → Nat → ScanResult
  | 0, _, _ => .out_of_fuel
  | fuel + 1, temp_offset, data_records =>
    if temp_offset < nbytes_used then
      -- hdr->type is read at journal_buf + temp_offset
      if BLOCK_SIZE < temp_offset + 2 then .undefined
      else if rec_type journal_buf temp_offset = REC_DATA then
        first_pass journal_buf nbytes_used fuel ((temp_offset + sizeof_data_record) % U32)
          (data_records + 1)
      else if rec_type journal_buf temp_offset = REC_COMMIT then .commit_found data_records
      else .unknown_type
    else .no_commit data_records

/-- How the second loop of `do_install` ends. -/
inductive ReplayResult where
  | done (img : Image)
  | undefined
  | out_of_fuel

/-- The second loop of `do_install` (replay DATA records) from `offset`, for at
most `fuel` iterations. -/
def second_pass (journal_buf : Block) (nbytes_used : Nat) : Nat → Nat → Image → ReplayResult
  | 0, _, _ => .out_of_fuel
  | fuel + 1, offset, img =>
    if offset < nbytes_used then
      -- hdr->type is read at journal_buf + offset
      if BLOCK_SIZE < offset + 2 then .undefined
      else if rec_type journal_buf offset = REC_DATA then
        -- write_block_raw reads rec->data, BLOCK_SIZE bytes from journal_buf + offset + 8
        if BLOCK_SIZE < offset + sizeof_data_record then .undefined
        else
          second_pass journal_buf nbytes_used fuel ((offset + sizeof_data_record) % U32)
            (write_block_raw img (rec_block_no journal_buf offset) (rec_data journal_buf offset))
      else if rec_type journal_buf offset = REC_COMMIT then .done img
      else second_pass journal_buf nbytes_used fuel offset img
    else .done img

/-- The journal block `do_install` writes in its last step ("Clear journal"). -/
def clear_journal (jh : Block) (journal_buf : Block) : Block :=
  let jh := jh_set_nbytes_used jh sizeof_journal_header
  let journal_buf := memset journal_buf sizeof_journal_header 0 (BLOCK_SIZE - sizeof_journal_header)
  memcpy journal_buf 0 jh sizeof_journal_header

/-- Iterations granted to each loop of `do_install`; a loop that needs more
does not terminate.  Every iteration that goes on to another one either moves
the offset forward inside the 4096-byte block or leaves it unchanged for ever. -/
abbrev loop_fuel : Nat := BLOCK_SIZE + 1

def do_install (sb : superblock) (img : Image) : Outcome :=
  let jh := read_journal_header sb img
  if jh_magic jh ≠ JOURNAL_MAGIC then .returned (-1) .CorruptJournal img
  else if jh_nbytes_used jh ≤ sizeof_journal_header then .returned 0 .Empty img
  else
    let journal_buf := read_block_raw img sb.journal_block
    let offset := sizeof_journal_header
    match first_pass journal_buf (jh_nbytes_used jh) loop_fuel offset 0 with
    | .undefined => .undefined
    | .out_of_fuel => .diverges
    | .unknown_type => .returned (-1) .CorruptJournal img
    | .no_commit _ => .returned (-1) .IncompleteTransaction img
    | .commit_found _ =>
      match second_pass journal_buf (jh_nbytes_used jh) loop_fuel offset img with
      | .undefined => .undefined
      | .out_of_fuel => .diverges
      | .done img =>
        .returned 0 .Success (write_block_raw img sb.journal_block (clear_journal jh journal_buf))

/-! ## The program entry point -/

/-- The C call `strcmp(a, b)` on two NUL-terminated strings. -/
def strcmp (a b : List Nat) : Int := strncmp (cstr a) (cstr b) (max a.length b.length + 1)

/-- The string literal "info". -/
def str_info : List Nat := [105, 110, 102, 111]

/-- The string literal "create". -/
def str_create : List Nat := [99, 114, 101, 97, 116, 101]

/-- The string literal "install". -/
def str_install : List Nat := [105, 110, 115, 116, 97, 108, 108]

/-- The string literal "vsfs.img", the image path used when none is given. -/
def str_vsfs_img : List Nat := [118, 115, 102, 115, 46, 105, 109, 103]

/-- How `main` ends: it returns `value` (or `open_disk` calls `exit(1)`), the
image file it opened, if any, holding `img`; or it runs into an access with no
defined behaviour; or it loops forever. -/
inductive MainOutcome where
  | returned (value : Int) (img : Option Image)
  | undefined
  | diverges

/-- The value `main` returns, when it returns. -/
def MainOutcome.value : MainOutcome → Option Int
  | .returned v _ => some v
  | _ => none

/-- The statement `result = do_create(...)` or `result = do_install(...)`
followed by `close_disk(); return result;`. -/
def Outcome.to_main : Outcome → MainOutcome
  | .returned c _ img => .returned c (some img)
  | .undefined => .undefined
  | .diverges => .diverges

/-- The exit status the parent process sees for a value returned by `main`:
its low eight bits. -/
def exit_status (value : Int) : Int := value % 256

/-- Whether `printf("%s", entries[i].name)` meets a NUL before the end of the
4096-byte directory buffer. -/
def name_terminated (dir_block : Block) (i : Nat) : Bool :=
  (List.range (BLOCK_SIZE - (i * sizeof_dirent + 4))).any
    (fun k => byte dir_block (i * sizeof_dirent + 4 + k) = 0)

/-- The `info` branch of `main`: it only reads and prints, and leaves
`result = 0`.  Its counting loop calls `check_bit` for every index below
`inode_count`, and it prints the name of every entry in use. -/
def info (sb : superblock) (img : Image) : MainOutcome :=
  if BLOCK_SIZE * 8 < sb.inode_count then .undefined
  else
    let root_inode := read_inode sb img 0
    if inode_type root_inode = 2 ∧ inode_direct root_inode 0 ≠ 0 then
      let dir_block := read_block_raw img (inode_direct root_inode 0)
      if (List.range DIRENTS_PER_BLOCK).all
          (fun i => dirent_inode dir_block i = 0 || name_terminated dir_block i)
      then .returned 0 (some img)
      else .undefined
    else .returned 0 (some img)

/-- The function `main`.  `argv` lists the arguments, program name first;
`files` gives the contents of the image file at a path, `none` when
`open_disk` cannot open it. -/
def main (argv : List (List Nat)) (files : List Nat → Option Image) (now : Nat) : MainOutcome :=
  let argc := argv.length
  if argc < 2 then .returned 1 none
  else
    let image_path :=
      if strcmp (argv.getD 1 []) str_create = 0 then
        (if argc ≥ 4 then argv.getD 3 [] else str_vsfs_img)
      else
        (if argc ≥ 3 then argv.getD (argc - 1) [] else str_vsfs_img)
    match files image_path with
    | none => .returned 1 none
    | some img =>
      let sb := read_superblock img
      if sb.magic ≠ FS_MAGIC then .returned 1 (some img)
      else if strcmp (argv.getD 1 []) str_info = 0 then info sb img
      else if strcmp (argv.getD 1 []) str_create = 0 then
        if argc < 3 then .returned 1 (some img)
        else (do_create sb img (argv.getD 2 []) now).to_main
      else if strcmp (argv.getD 1 []) str_install = 0 then (do_install sb img).to_main
      else .returned 1 (some img)

/-! ## Notions of the specification -/

/-- The bytes of a C string: those before its first NUL. -/
def cstr_bytes : List Nat → List Nat
  | [] => []
  | c :: cs => if c % 256 = 0 then [] else c % 256 :: cstr_bytes cs

/-- The byte sequence of a name field read from `a + k`: the bytes up to its
first NUL, or all `n` bytes when it has none. -/
def field_string (a : Block) : Nat → Nat → List Nat
  | 0, _ => []
  | n + 1, k => if byte a k = 0 then [] else byte a k :: field_string a n (k + 1)

/-- The matching rule of the specification for slot `s`: the inode field is
nonzero, the name field equals the name on its first `min(28, strlen(name))`
bytes, and every later byte of the name field is NUL. -/
def strict_name_match (dir_block : Block) (name : List Nat) (s : Nat) : Prop :=
  dirent_inode dir_block s ≠ 0 ∧
  (∀ j, j < min NAME_LEN (strlen name) →
    byte (dirent_name dir_block s) j = byte (cstr name) j) ∧
  (∀ j, j < NAME_LEN → min NAME_LEN (strlen name) ≤ j → byte (dirent_name dir_block s) j = 0)

/-- The matching rule `strncmp` applies to slot `s`: the inode field is
nonzero, the name field equals the name on its first `min(28, strlen(name))`
bytes, and when the name is shorter than 28 bytes the name field has a NUL
right after them. -/
def strncmp_name_match (dir_block : Block) (name : List Nat) (s : Nat) : Prop :=
  dirent_inode dir_block s ≠ 0 ∧
  (∀ j, j < min NAME_LEN (strlen name) →
    byte (dirent_name dir_block s) j = byte (cstr name) j) ∧
  (strlen name < NAME_LEN → byte (dirent_name dir_block s) (strlen name) = 0)

instance (dir_block : Block) (name : List Nat) (s : Nat) :
    Decidable (strict_name_match dir_block name s) :=
  inferInstanceAs (Decidable (_ ∧ _ ∧ _))

instance (dir_block : Block) (name : List Nat) (s : Nat) :
    Decidable (strncmp_name_match dir_block name s) :=
  inferInstanceAs (Decidable (_ ∧ _ ∧ _))

/-! ## The staging step of `do_create` -/

/-- The buffer `dir_block` of `do_create`: the block named by `direct[0]` of inode 0. -/
def root_dir_block (sb : superblock) (img : Image) : Block :=
  read_block_raw img (inode_direct (read_inode sb img 0) 0)

/-- The checks of `do_create` pass and leave `slot` and `new_inum` with the
given non-negative values: the name is shorter than 28 bytes, the root inode
has type 2, the name is not found, and the two searches return `slot` and
`new_inum`. -/
def create_checks_pass (sb : superblock) (img : Image) (filename : List Nat)
    (slot new_inum : Nat) : Prop :=
  strlen filename < NAME_LEN ∧
  inode_type (read_inode sb img 0) = 2 ∧
  find_dirent_by_name (root_dir_block sb img) filename < 0 ∧
  find_free_dirent_slot (root_dir_block sb img) = (slot : Int) ∧
  find_free_inode sb (read_bitmap_block img sb.inode_bitmap) = some (new_inum : Int)

instance (sb : superblock) (img : Image) (filename : List Nat) (slot new_inum : Nat) :
    Decidable (create_checks_pass sb img filename slot new_inum) :=
  inferInstanceAs (Decidable (_ ∧ _ ∧ _ ∧ _ ∧ _))

/-- The counter `used_inodes` of the `info` branch of `main` after its loop has
run over the first `n` bits of the bitmap. -/
def used_inodes (bitmap : Block) : Nat → Nat
  | 0 => 0
  | n + 1 => used_inodes bitmap n + (if check_bit bitmap n ≠ 0 then 1 else 0)

/-- No two entries in use of a directory block have names that the 28-byte
`strncmp` comparison finds equal. -/
def names_unique (dir_block : Block) : Prop :=
  ∀ t1, t1 < DIRENTS_PER_BLOCK → ∀ t2, t2 < DIRENTS_PER_BLOCK → t1 ≠ t2 →
    dirent_inode dir_block t1 ≠ 0 → dirent_inode dir_block t2 ≠ 0 →
    strncmp (dirent_name dir_block t1) (dirent_name dir_block t2) NAME_LEN ≠ 0

instance (dir_block : Block) : Decidable (names_unique dir_block) :=
  Nat.decidableBallLT _ _

/-! ## Sample images -/

/-- A buffer holding the listed bytes followed by zeros. -/
def block_of (l : List Nat) : Block := fun i => l.getD i 0

/-- The geometry of a small formatted image: journal in block 1, inode bitmap
in block 2, data bitmap in block 3, inode table in block 4, data from block 5. -/
def sample_sb : superblock :=
  { magic := FS_MAGIC, block_size := 4096, total_blocks := 8, inode_count := 32,
    journal_block := 1, inode_bitmap := 2, data_bitmap := 3, inode_start := 4, data_start := 5 }

/-- An image of geometry `sample_sb` with the given journal block: inode 0 is
the root directory (type 2, one link, `direct[0] = 5`), its bit is the only one
set in the inode bitmap, and the root directory block is empty. -/
def sample_image (journal : Block) : Image := fun n =>
  if n = 1 then journal
  else if n = 2 then block_of [1]
  else if n = 4 then block_of [2, 0, 1, 0, 0, 0, 0, 0, 5]
  else zero_block

/-- A journal block with the JRNL magic, `nbytes_used = 8` and nothing else. -/
def clean_journal : Block := block_of [0x4C, 0x4E, 0x52, 0x4A, 8]

/-- The name "hello". -/
def hello : List Nat := [104, 101, 108, 108, 111]

/-- A name of 28 bytes, each the letter a. -/
def long_name : List Nat := List.replicate 28 97

/-- A journal header whose `nbytes_used` is 4294963192, that is 2^32 - 4104
(bytes F8 EF FF FF). -/
def wrapped_header : Block := block_of [0x4C, 0x4E, 0x52, 0x4A, 0xF8, 0xEF, 0xFF, 0xFF]

/-- A journal block with the JRNL magic and `nbytes_used = 4096` whose only
record header, at offset 8, is that of a DATA record (type 1, size 4104) for
block 2: staging that was never committed. -/
def staged_journal : Block :=
  block_of [0x4C, 0x4E, 0x52, 0x4A, 0, 0x10, 0, 0, 1, 0, 8, 0x10, 2, 0, 0, 0]

/-- A journal block with the JRNL magic and `nbytes_used = 12` whose record
header at offset 8 has the unknown type 7. -/
def unknown_type_journal : Block := block_of [0x4C, 0x4E, 0x52, 0x4A, 12, 0, 0, 0, 7, 0, 4, 0]

/-- A journal block whose magic field is 0. -/
def unformatted_journal : Block := zero_block

/-- Block 0 of an image of geometry `sample_sb`: the nine superblock fields. -/
def sample_superblock_block : Block :=
  block_of [0x53, 0x46, 0x53, 0x56, 0, 0x10, 0, 0, 8, 0, 0, 0, 32, 0, 0, 0, 1, 0, 0, 0,
    2, 0, 0, 0, 3, 0, 0, 0, 4, 0, 0, 0, 5, 0, 0, 0]

/-- The image `sample_image journal` with its superblock written in block 0. -/
def sample_disk (journal : Block) : Image := fun n =>
  if n = 0 then sample_superblock_block else sample_image journal n

/-- A directory block whose slot 0 has inode 1 and the name field
"hello", NUL, "x", then NULs; every other slot is empty. -/
def junk_dir : Block := block_of [1, 0, 0, 0, 104, 101, 108, 108, 111, 0, 120]

/-- A directory block whose slots 0 and 1 are in use (inodes 1 and 2, names
"hello" and "world") and whose other slots are empty. -/
def two_entry_dir : Block :=
  block_of [1, 0, 0, 0, 104, 101, 108, 108, 111, 0, 0, 0, 0, 0, 0, 0,
    0, 0, 0, 0, 0, 0, 0, 0, 0, 0, 0, 0, 0, 0, 0, 0,
    2, 0, 0, 0, 119, 111, 114, 108, 100]

/-- The image `sample_image journal` with `two_entry_dir` as its root directory block. -/
def sample_image_with_files (journal : Block) : Image := fun n =>
  if n = 5 then two_entry_dir else sample_image journal n

/-- An inode bitmap whose first three bits are set (byte 0 is 7). -/
def three_bit_bitmap : Block := block_of [7]

/-- An image all of whose blocks are zero: no magic, no root directory. -/
def zero_image : Image := fun _ => zero_block

/-- The name "world". -/
def world : List Nat := [119, 111, 114, 108, 100]

/-- The program name "journal". -/
def str_journal : List Nat := [106, 111, 117, 114, 110, 97, 108]

/-- The argument "bogus", which names no command. -/
def str_bogus : List Nat := [98, 111, 103, 117, 115]

/-- The name "notes". -/
def notes : List Nat := [110, 111, 116, 101, 115]

/-- A bitmap all of whose bits are set. -/
def full_bitmap : Block := fun _ => 255

/-- The geometry `sample_sb` with `inode_count` raised to 32769, one more
than the bits of a bitmap block. -/
def oversized_sb : superblock := { sample_sb with inode_count := 32769 }

/-- The image `sample_image journal` with every bit of the inode bitmap set. -/
def full_bitmap_image (journal : Block) : Image := fun n =>
  if n = 2 then full_bitmap else sample_image journal n

/-- The image `sample_image journal` whose root directory block is the one
`do_create` stages for "hello" in slot 0 with inode 1. -/
def image_after_create (journal : Block) : Image := fun n =>
  if n = 5 then staged_dir_block zero_block 0 1 hello else sample_image journal n

/-! ## Lemmas on the byte level -/

theorem le32_store32 (b : Block) (off v : Nat) : le32 (store32 b off v) off = v % U32 := by
  have key : ∀ w, w < 4294967296 → le32 (memcpy b off (le_bytes w) 4) off = w := by
    intro w hw
    simp only [le32, byte, memcpy, le_bytes]
    norm_num
    omega
  exact key _ (Nat.mod_lt _ (by decide))

theorem jh_nbytes_used_set (jh : Block) (v : Nat) :
    jh_nbytes_used (jh_set_nbytes_used jh v) = v % U32 := by
  simp only [jh_nbytes_used, jh_set_nbytes_used, le32_store32]

theorem write_block_raw_other (img : Image) (k n : Nat) (buf : Block) (h : n ≠ k) :
    write_block_raw img k buf n = img n := by
  simp [write_block_raw, h]

/-! ## Lemmas on the journal functions -/

theorem append_data_record_frame (sb : superblock) (jh : Block) (img : Image) (dest : Nat)
    (data : Block) (c : Int) (jh1 : Block) (img1 : Image)
    (h : append_data_record sb jh img dest data = .ret c jh1 img1)
    (n : Nat) (hn : n ≠ sb.journal_block) : img1 n = img n := by
  unfold append_data_record at h
  simp only at h
  split at h
  · simp only [AppendResult.ret.injEq] at h
    rw [← h.2.2]
  · split at h
    · exact absurd h (by simp)
    · simp only [AppendResult.ret.injEq] at h
      rw [← h.2.2, write_block_raw_other _ _ _ _ hn]

theorem append_commit_record_frame (sb : superblock) (jh : Block) (img : Image)
    (c : Int) (jh1 : Block) (img1 : Image)
    (h : append_commit_record sb jh img = .ret c jh1 img1)
    (n : Nat) (hn : n ≠ sb.journal_block) : img1 n = img n := by
  unfold append_commit_record at h
  simp only at h
  split at h
  · simp only [AppendResult.ret.injEq] at h
    rw [← h.2.2]
  · split at h
    · exact absurd h (by simp)
    · simp only [AppendResult.ret.injEq] at h
      rw [← h.2.2, write_block_raw_other _ _ _ _ hn]

/-- With `nbytes_used` reset to `sizeof(struct journal_header)` the capacity
test of `append_data_record` fails. -/
theorem append_data_record_after_reset (sb : superblock) (jh : Block) (img : Image) (dest : Nat)
    (data : Block) :
    append_data_record sb (jh_set_nbytes_used jh sizeof_journal_header) img dest data
      = .ret (-1) (jh_set_nbytes_used jh sizeof_journal_header) img := by
  have e : jh_nbytes_used (jh_set_nbytes_used jh sizeof_journal_header) = 4096 :=
    (jh_nbytes_used_set _ _).trans (by decide)
  unfold append_data_record
  rw [e]
  rfl

/-- Where the 32-bit sum does not wrap, `append_data_record` reports a full
journal and touches neither the header object nor the image. -/
theorem append_data_record_full (sb : superblock) (jh : Block) (img : Image) (dest : Nat)
    (data : Block) (h : jh_nbytes_used jh + sizeof_data_record < U32) :
    append_data_record sb jh img dest data = .ret (-1) jh img := by
  unfold append_data_record
  show (if (jh_nbytes_used jh + sizeof_data_record) % U32 > BLOCK_SIZE then _ else _) = _
  rw [Nat.mod_eq_of_lt h]
  exact if_pos (by show 4096 < jh_nbytes_used jh + 4104; omega)

theorem and_then_frame (P : Image → Prop) (r : AppendResult) (k : Block → Image → Outcome)
    (c : Int) (s : Status) (img1 : Image)
    (h : r.and_then k = .returned c s img1)
    (hr : ∀ c0 jh0 img0, r = .ret c0 jh0 img0 → P img0)
    (hk : ∀ c0 jh0 img0, r = .ret c0 jh0 img0 → k jh0 img0 = .returned c s img1 → P img1) :
    P img1 := by
  cases r with
  | undefined => exact absurd h (by simp [AppendResult.and_then])
  | ret c0 jh0 img0 =>
    by_cases hc : c0 < 0
    · simp only [AppendResult.and_then, if_pos hc, Outcome.returned.injEq] at h
      rw [← h.2.2]
      exact hr c0 jh0 img0 rfl
    · simp only [AppendResult.and_then, if_neg hc] at h
      exact hk c0 jh0 img0 rfl h

theorem write_to_journal_frame (sb : superblock) (img : Image) (bm : Block) (ibn : Nat)
    (ib : Block) (rdb : Nat) (db : Block) (c : Int) (s : Status) (img1 : Image)
    (h : write_to_journal sb img bm ibn ib rdb db = .returned c s img1)
    (n : Nat) (hn : n ≠ sb.journal_block) : img1 n = img n := by
  unfold write_to_journal at h
  by_cases hm : jh_magic (read_journal_header sb img) ≠ JOURNAL_MAGIC
  · have h1 : Outcome.returned (-1) Status.CorruptJournal img = .returned c s img1 := by
      rw [← h]; exact (if_pos hm).symm
    simp only [Outcome.returned.injEq] at h1
    rw [← h1.2.2]
  · replace h := (if_neg hm).symm.trans h
    refine and_then_frame (fun i => i n = img n) _ _ c s img1 h ?_ ?_
    · intro c1 jh1 i1 e1
      exact append_data_record_frame _ _ _ _ _ _ _ _ e1 n hn
    · intro c1 jh1 i1 e1 h2
      have f1 := append_data_record_frame _ _ _ _ _ _ _ _ e1 n hn
      refine and_then_frame (fun i => i n = img n) _ _ c s img1 h2 ?_ ?_
      · intro c2 jh2 i2 e2
        exact (append_data_record_frame _ _ _ _ _ _ _ _ e2 n hn).trans f1
      · intro c2 jh2 i2 e2 h3
        have f2 := (append_data_record_frame _ _ _ _ _ _ _ _ e2 n hn).trans f1
        refine and_then_frame (fun i => i n = img n) _ _ c s img1 h3 ?_ ?_
        · intro c3 jh3 i3 e3
          exact (append_data_record_frame _ _ _ _ _ _ _ _ e3 n hn).trans f2
        · intro c3 jh3 i3 e3 h4
          have f3 := (append_data_record_frame _ _ _ _ _ _ _ _ e3 n hn).trans f2
          refine and_then_frame (fun i => i n = img n) _ _ c s img1 h4 ?_ ?_
          · intro c4 jh4 i4 e4
            exact (append_commit_record_frame _ _ _ _ _ _ e4 n hn).trans f3
          · intro c4 jh4 i4 e4 h5
            simp only [Outcome.returned.injEq] at h5
            rw [← h5.2.2]
            exact (append_commit_record_frame _ _ _ _ _ _ e4 n hn).trans f3

theorem write_to_journal_bad_magic (sb : superblock) (img : Image) (bm : Block) (ibn : Nat)
    (ib : Block) (rdb : Nat) (db : Block)
    (h : jh_magic (img sb.journal_block) ≠ JOURNAL_MAGIC) :
    write_to_journal sb img bm ibn ib rdb db = .returned (-1) .CorruptJournal img := by
  have e : read_journal_header sb img = img sb.journal_block := rfl
  unfold write_to_journal
  rw [e]
  exact if_pos h

theorem write_to_journal_good_magic (sb : superblock) (img : Image) (bm : Block) (ibn : Nat)
    (ib : Block) (rdb : Nat) (db : Block)
    (h : jh_magic (img sb.journal_block) = JOURNAL_MAGIC) :
    write_to_journal sb img bm ibn ib rdb db = .returned (-1) .JournalFull img := by
  have e : read_journal_header sb img = img sb.journal_block := rfl
  unfold write_to_journal
  rw [e]
  show (if jh_magic (img sb.journal_block) ≠ JOURNAL_MAGIC then _ else _) = _
  rw [if_neg (not_not.mpr h)]
  show AppendResult.and_then (append_data_record sb _ img sb.inode_bitmap bm) _ = _
  rw [append_data_record_after_reset]
  rfl

/-- When every check of `do_create` passes, the call is its journal phase. -/
theorem do_create_checks_passed (sb : superblock) (img : Image) (filename : List Nat) (now : Nat)
    (new_inum : Int)
    (hlen : strlen filename < NAME_LEN)
    (hroot : inode_type (read_inode sb img 0) = 2)
    (hname : find_dirent_by_name (img (inode_direct (read_inode sb img 0) 0)) filename < 0)
    (hslot : 0 ≤ find_free_dirent_slot (img (inode_direct (read_inode sb img 0) 0)))
    (hino : find_free_inode sb (img sb.inode_bitmap) = some new_inum)
    (hpos : 0 ≤ new_inum) :
    do_create sb img filename now =
      write_to_journal sb img
        (staged_inode_bitmap (img sb.inode_bitmap) new_inum.toNat)
        ((sb.inode_start + new_inum.toNat / (BLOCK_SIZE / sizeof_inode)) % U32)
        (staged_inode_block sb img new_inum.toNat now)
        (inode_direct (read_inode sb img 0) 0)
        (staged_dir_block (img (inode_direct (read_inode sb img 0) 0))
          (find_free_dirent_slot (img (inode_direct (read_inode sb img 0) 0))).toNat
          new_inum.toNat filename) := by
  unfold do_create
  simp only [read_bitmap_block, read_block_raw]
  rw [if_neg (by omega), if_neg (not_not.mpr hroot), if_neg (by omega), if_neg (by omega), hino]
  simp only
  rw [if_neg (by omega)]

/-! ## Lemmas on `do_install` -/

theorem do_install_bad_magic (sb : superblock) (img : Image)
    (h : jh_magic (img sb.journal_block) ≠ JOURNAL_MAGIC) :
    do_install sb img = .returned (-1) .CorruptJournal img := by
  have e : read_journal_header sb img = img sb.journal_block := rfl
  unfold do_install
  rw [e]
  exact if_pos h

theorem do_install_within_header (sb : superblock) (img : Image)
    (h : jh_magic (img sb.journal_block) = JOURNAL_MAGIC)
    (hn : jh_nbytes_used (img sb.journal_block) ≤ sizeof_journal_header) :
    do_install sb img = .returned 0 .Empty img := by
  have e : read_journal_header sb img = img sb.journal_block := rfl
  unfold do_install
  rw [e]
  show (if jh_magic (img sb.journal_block) ≠ JOURNAL_MAGIC then _ else _) = _
  rw [if_neg (not_not.mpr h)]
  exact if_pos hn

/-- The first loop reads its first record header at `journal_buf + 4096`. -/
theorem first_pass_past_header (journal_buf : Block) (nbytes_used fuel : Nat)
    (hn : sizeof_journal_header < nbytes_used) :
    first_pass journal_buf nbytes_used (fuel + 1) sizeof_journal_header 0 = .undefined := by
  unfold first_pass
  rw [if_pos hn]
  rfl

theorem do_install_past_header (sb : superblock) (img : Image)
    (h : jh_magic (img sb.journal_block) = JOURNAL_MAGIC)
    (hn : sizeof_journal_header < jh_nbytes_used (img sb.journal_block)) :
    do_install sb img = .undefined := by
  have e : read_journal_header sb img = img sb.journal_block := rfl
  unfold do_install
  rw [e]
  show (if jh_magic (img sb.journal_block) ≠ JOURNAL_MAGIC then _ else _) = _
  rw [if_neg (not_not.mpr h), if_neg (by omega)]
  show (match first_pass _ (jh_nbytes_used (img sb.journal_block)) (BLOCK_SIZE + 1)
      sizeof_journal_header 0 with
    | .undefined => _ | .out_of_fuel => _ | .unknown_type => _ | .no_commit _ => _
    | .commit_found _ => _) = _
  rw [first_pass_past_header _ _ _ hn]

/-- Every call of `do_install` that returns has taken one of its two early
exits, and has left the image as it found it. -/
theorem do_install_returned (sb : superblock) (img : Image) (c : Int) (s : Status) (img1 : Image)
    (h : do_install sb img = .returned c s img1) :
    img1 = img ∧
      ((jh_magic (img sb.journal_block) ≠ JOURNAL_MAGIC ∧ c = -1 ∧ s = .CorruptJournal) ∨
       (jh_magic (img sb.journal_block) = JOURNAL_MAGIC ∧
        jh_nbytes_used (img sb.journal_block) ≤ sizeof_journal_header ∧ c = 0 ∧ s = .Empty)) := by
  by_cases hm : jh_magic (img sb.journal_block) = JOURNAL_MAGIC
  · by_cases hn : jh_nbytes_used (img sb.journal_block) ≤ sizeof_journal_header
    · rw [do_install_within_header sb img hm hn] at h
      simp only [Outcome.returned.injEq] at h
      exact ⟨h.2.2.symm, Or.inr ⟨hm, hn, h.1.symm, h.2.1.symm⟩⟩
    · rw [do_install_past_header sb img hm (by omega)] at h
      exact absurd h (by simp)
  · rw [do_install_bad_magic sb img hm] at h
    simp only [Outcome.returned.injEq] at h
    exact ⟨h.2.2.symm, Or.inl ⟨hm, h.1.symm, h.2.1.symm⟩⟩

/-! ## Lemmas on `do_create` -/

/-- The ways `do_create` can end: one of the five validation failures, an
out-of-bounds bitmap scan, or its journal phase. -/
theorem do_create_cases (sb : superblock) (img : Image) (filename : List Nat) (now : Nat) :
    do_create sb img filename now = .returned (-1) .NameTooLong img ∨
    do_create sb img filename now = .returned (-1) .NotADirectory img ∨
    do_create sb img filename now = .returned (-1) .AlreadyExists img ∨
    do_create sb img filename now = .returned (-1) .DirFull img ∨
    do_create sb img filename now = .returned (-1) .NoFreeInode img ∨
    do_create sb img filename now = .undefined ∨
    ∃ bm ibn ib rdb db,
      do_create sb img filename now = write_to_journal sb img bm ibn ib rdb db := by
  unfold do_create
  by_cases h1 : strlen filename ≥ NAME_LEN
  · exact Or.inl (if_pos h1)
  rw [if_neg h1]
  by_cases h2 : inode_type (read_inode sb img 0) ≠ 2
  · exact Or.inr (Or.inl (if_pos h2))
  simp only [if_neg h2]
  split
  · exact Or.inr (Or.inr (Or.inl rfl))
  split
  · exact Or.inr (Or.inr (Or.inr (Or.inl rfl)))
  split
  · exact Or.inr (Or.inr (Or.inr (Or.inr (Or.inr (Or.inl rfl)))))
  split
  · exact Or.inr (Or.inr (Or.inr (Or.inr (Or.inl rfl))))
  · exact Or.inr (Or.inr (Or.inr (Or.inr (Or.inr (Or.inr ⟨_, _, _, _, _, rfl⟩)))))

/-- The journal phase of `do_create` fails, whatever it is given, and leaves the image alone. -/
theorem write_to_journal_fails (sb : superblock) (img : Image) (bm : Block) (ibn : Nat)
    (ib : Block) (rdb : Nat) (db : Block) :
    write_to_journal sb img bm ibn ib rdb db = .returned (-1) .CorruptJournal img ∨
    write_to_journal sb img bm ibn ib rdb db = .returned (-1) .JournalFull img := by
  by_cases h : jh_magic (img sb.journal_block) = JOURNAL_MAGIC
  · exact Or.inr (write_to_journal_good_magic sb img bm ibn ib rdb db h)
  · exact Or.inl (write_to_journal_bad_magic sb img bm ibn ib rdb db h)

/-- No call of `do_create` returns 0. -/
theorem do_create_code_ne_zero (sb : superblock) (img : Image) (filename : List Nat) (now : Nat) :
    (do_create sb img filename now).code ≠ some 0 := by
  rcases do_create_cases sb img filename now with e | e | e | e | e | e | ⟨bm, ibn, ib, rdb, db, e⟩
  all_goals rw [e]
  any_goals (simp only [Outcome.code]; decide)
  rcases write_to_journal_fails sb img bm ibn ib rdb db with w | w
  all_goals rw [w]
  all_goals (simp only [Outcome.code]; decide)

theorem do_create_sample (now : Nat) :
    do_create sample_sb (sample_image clean_journal) hello now
      = .returned (-1) .JournalFull (sample_image clean_journal) := by
  rw [do_create_checks_passed sample_sb (sample_image clean_journal) hello now 1
    (by decide) (by decide) (by decide) (by decide) (by decide) (by decide)]
  exact write_to_journal_good_magic _ _ _ _ _ _ _ (by decide)

/-! ## The create command -/

/-- Claim C1, evaluated on a formatted image.  The image has the JRNL magic, a
root inode of type 2, no entry named "hello", a free directory slot (slot 0)
and a free inode (inode 1) below `inode_count`; yet `do_create` returns -1
with "Journal full" at its first `append_data_record` and leaves the journal
block as it was, with no record staged. -/
theorem create_sample_journal_full :
    jh_magic (sample_image clean_journal sample_sb.journal_block) = JOURNAL_MAGIC ∧
    inode_type (read_inode sample_sb (sample_image clean_journal) 0) = 2 ∧
    strlen hello < NAME_LEN ∧
    find_dirent_by_name (sample_image clean_journal
      (inode_direct (read_inode sample_sb (sample_image clean_journal) 0) 0)) hello = -1 ∧
    find_free_dirent_slot (sample_image clean_journal
      (inode_direct (read_inode sample_sb (sample_image clean_journal) 0) 0)) = 0 ∧
    find_free_inode sample_sb (sample_image clean_journal sample_sb.inode_bitmap) = some 1 ∧
    (1 : Nat) < sample_sb.inode_count ∧
    ∀ now, do_create sample_sb (sample_image clean_journal) hello now
      = .returned (-1) .JournalFull (sample_image clean_journal) :=
  ⟨by decide, by decide, by decide, by decide, by decide, by decide, by decide,
    fun now => do_create_sample now⟩

/-- Claim C3 as stated fails on a header with `nbytes_used = 4294963192`,
that is 2^32 - 4104.  As integers `nbytes_used + 4104` exceeds 4096, but the
test is computed in `uint32_t`, where the sum is 0: `append_data_record` does
not return -1 and goes on to copy the record outside `journal_buf`. -/
theorem append_data_record_capacity_wraps :
    jh_nbytes_used wrapped_header = 4294963192 ∧
    4096 < jh_nbytes_used wrapped_header + 4104 ∧
    (jh_nbytes_used wrapped_header + sizeof_data_record) % U32 = 0 ∧
    (∀ (sb : superblock) (img : Image) (dest : Nat) (data : Block),
      append_data_record sb wrapped_header img dest data = .undefined) ∧
    ∀ (sb : superblock) (img : Image) (dest : Nat) (data : Block) (jh1 : Block) (img1 : Image),
      append_data_record sb wrapped_header img dest data ≠ .ret (-1) jh1 img1 := by
  have e : jh_nbytes_used wrapped_header = 4294963192 := by decide
  have hu : ∀ (sb : superblock) (img : Image) (dest : Nat) (data : Block),
      append_data_record sb wrapped_header img dest data = .undefined := by
    intro sb img dest data
    unfold append_data_record
    rw [e]
    rfl
  refine ⟨e, by rw [e]; decide, by rw [e]; decide, hu, ?_⟩
  intro sb img dest data jh1 img1 h
  rw [hu] at h
  exact absurd h (by simp)

/-- Claim C3, amended: for every journal header whose `nbytes_used` makes
`nbytes_used + 4104` exceed 4096 in 32-bit unsigned arithmetic, which is the
case of every `nbytes_used` below 2^32 - 4104, `append_data_record` returns
-1 ("Journal full"), and the image and the header it leaves are the ones it
was given. -/
theorem append_data_record_full_in_uint32 (sb : superblock) (jh : Block) (img : Image)
    (dest : Nat) (data : Block)
    (h : (jh_nbytes_used jh + sizeof_data_record) % U32 > BLOCK_SIZE) :
    ∃ jh1 img1, append_data_record sb jh img dest data = .ret (-1) jh1 img1 ∧
      (∀ n, img1 n = img n) ∧ jh_nbytes_used jh1 = jh_nbytes_used jh := by
  refine ⟨jh, img, ?_, fun _ => rfl, rfl⟩
  unfold append_data_record
  exact if_pos h

theorem append_data_record_full_in_uint32_witness :
    jh_nbytes_used staged_journal = 4096 ∧
    (jh_nbytes_used staged_journal + sizeof_data_record) % U32 > BLOCK_SIZE ∧
    ∃ jh1 img1, append_data_record sample_sb staged_journal (sample_image staged_journal)
        sample_sb.inode_bitmap three_bit_bitmap = .ret (-1) jh1 img1 ∧
      (∀ n, img1 n = sample_image staged_journal n) ∧
      jh_nbytes_used jh1 = jh_nbytes_used staged_journal :=
  ⟨by decide, by decide,
    append_data_record_full_in_uint32 sample_sb staged_journal (sample_image staged_journal)
      sample_sb.inode_bitmap three_bit_bitmap (by decide)⟩

/-- Claim C4: when `do_create` fails with NameTooLong, NotADirectory,
AlreadyExists, DirFull or NoFreeInode, the image it leaves is the image it was
given, every block of it, the journal block included. -/
theorem do_create_validation_failure_untouched (sb : superblock) (img : Image)
    (filename : List Nat) (now : Nat) (c : Int) (s : Status) (img1 : Image)
    (h : do_create sb img filename now = .returned c s img1)
    (hs : s = .NameTooLong ∨ s = .NotADirectory ∨ s = .AlreadyExists ∨ s = .DirFull ∨
      s = .NoFreeInode) :
    c = -1 ∧ ∀ n, img1 n = img n := by
  have key : c = -1 ∧ img1 = img := by
    rcases do_create_cases sb img filename now with e | e | e | e | e | e | ⟨bm, ibn, ib, rdb, db, e⟩
    all_goals rw [e] at h
    · simp only [Outcome.returned.injEq] at h; exact ⟨h.1.symm, h.2.2.symm⟩
    · simp only [Outcome.returned.injEq] at h; exact ⟨h.1.symm, h.2.2.symm⟩
    · simp only [Outcome.returned.injEq] at h; exact ⟨h.1.symm, h.2.2.symm⟩
    · simp only [Outcome.returned.injEq] at h; exact ⟨h.1.symm, h.2.2.symm⟩
    · simp only [Outcome.returned.injEq] at h; exact ⟨h.1.symm, h.2.2.symm⟩
    · exact absurd h (by simp)
    · have hj : s = .CorruptJournal ∨ s = .JournalFull := by
        rcases write_to_journal_fails sb img bm ibn ib rdb db with w | w
        all_goals rw [w] at h
        all_goals simp only [Outcome.returned.injEq] at h
        · exact Or.inl h.2.1.symm
        · exact Or.inr h.2.1.symm
      rcases hj with hj | hj
      all_goals rw [hj] at hs
      all_goals exact absurd hs (by decide)
  exact ⟨key.1, fun n => by rw [key.2]⟩

theorem do_create_validation_failure_untouched_witness :
    do_create sample_sb (sample_image clean_journal) long_name 0
      = .returned (-1) .NameTooLong (sample_image clean_journal) ∧
    ((-1 : Int) = -1 ∧ ∀ n, sample_image clean_journal n = sample_image clean_journal n) :=
  ⟨rfl, do_create_validation_failure_untouched sample_sb (sample_image clean_journal) long_name 0
    (-1) .NameTooLong (sample_image clean_journal) rfl (Or.inl rfl)⟩

/-- Claim C5: whatever `do_create` returns, every block other than the journal
block is the block it was before the call. -/
theorem do_create_writes_only_journal (sb : superblock) (img : Image)
    (filename : List Nat) (now : Nat) (c : Int) (s : Status) (img1 : Image)
    (h : do_create sb img filename now = .returned c s img1)
    (n : Nat) (hn : n ≠ sb.journal_block) : img1 n = img n := by
  rcases do_create_cases sb img filename now with e | e | e | e | e | e | ⟨bm, ibn, ib, rdb, db, e⟩
  all_goals rw [e] at h
  · simp only [Outcome.returned.injEq] at h; rw [← h.2.2]
  · simp only [Outcome.returned.injEq] at h; rw [← h.2.2]
  · simp only [Outcome.returned.injEq] at h; rw [← h.2.2]
  · simp only [Outcome.returned.injEq] at h; rw [← h.2.2]
  · simp only [Outcome.returned.injEq] at h; rw [← h.2.2]
  · exact absurd h (by simp)
  · exact write_to_journal_frame sb img bm ibn ib rdb db c s img1 h n hn

theorem do_create_writes_only_journal_witness :
    do_create sample_sb (sample_image clean_journal) hello 0
      = .returned (-1) .JournalFull (sample_image clean_journal) ∧
    (2 : Nat) ≠ sample_sb.journal_block ∧
    sample_image clean_journal 2 = sample_image clean_journal 2 :=
  ⟨do_create_sample 0, by decide,
    do_create_writes_only_journal sample_sb (sample_image clean_journal) hello 0 (-1)
      .JournalFull (sample_image clean_journal) (do_create_sample 0) 2 (by decide)⟩

/-! ## The install command -/

/-- Claim C6: when `do_install` returns, a second `do_install` on the image it
left returns too and leaves every block other than the journal block as the
first one left it; and when the first one returned success, the second one
reports Empty, returns success and leaves the whole image as it found it. -/
theorem do_install_idempotent (sb : superblock) (img : Image) (c1 : Int) (s1 : Status)
    (img1 : Image) (h : do_install sb img = .returned c1 s1 img1) :
    ∃ c2 s2 img2, do_install sb img1 = .returned c2 s2 img2 ∧
      (∀ n, n ≠ sb.journal_block → img2 n = img1 n) ∧
      (c1 = 0 → c2 = 0 ∧ s2 = .Empty ∧ ∀ n, img2 n = img1 n) := by
  obtain ⟨himg, hcase⟩ := do_install_returned sb img c1 s1 img1 h
  subst himg
  refine ⟨c1, s1, img1, h, fun n _ => rfl, fun hc => ?_⟩
  rcases hcase with ⟨_, hc1, _⟩ | ⟨_, _, _, hs⟩
  · rw [hc1] at hc
    exact absurd hc (by decide)
  · exact ⟨hc, hs, fun n => rfl⟩

theorem do_install_idempotent_witness :
    do_install sample_sb (sample_image clean_journal)
      = .returned 0 .Empty (sample_image clean_journal) ∧
    ∃ c2 s2 img2, do_install sample_sb (sample_image clean_journal) = .returned c2 s2 img2 ∧
      (∀ n, n ≠ sample_sb.journal_block → img2 n = sample_image clean_journal n) ∧
      ((0 : Int) = 0 → c2 = 0 ∧ s2 = .Empty ∧ ∀ n, img2 n = sample_image clean_journal n) :=
  ⟨do_install_within_header _ _ (by decide) (by decide),
    do_install_idempotent sample_sb (sample_image clean_journal) 0 .Empty
      (sample_image clean_journal) (do_install_within_header _ _ (by decide) (by decide))⟩

/-- Claim C8, evaluated on a journal with the JRNL magic and `nbytes_used =
4096` whose record walk from offset 8 meets a DATA record header and no
COMMIT: `do_install` returns 0 with "Journal is empty", not a failure. -/
theorem install_incomplete_reports_empty :
    jh_magic staged_journal = JOURNAL_MAGIC ∧
    8 < jh_nbytes_used staged_journal ∧
    rec_type staged_journal 8 = REC_DATA ∧
    first_pass staged_journal (jh_nbytes_used staged_journal) loop_fuel 8 0 = .no_commit 1 ∧
    do_install sample_sb (sample_image staged_journal)
      = .returned 0 .Empty (sample_image staged_journal) :=
  ⟨by decide, by decide, by decide, by decide,
    do_install_within_header _ _ (by decide) (by decide)⟩

/-- Claim C9, evaluated on a journal with the JRNL magic and `nbytes_used = 12`
whose first record header, at offset 8, has type 7: `do_install` returns 0
with "Journal is empty", not a failure. -/
theorem install_unknown_type_reports_empty :
    jh_magic unknown_type_journal = JOURNAL_MAGIC ∧
    8 < jh_nbytes_used unknown_type_journal ∧
    rec_type unknown_type_journal 8 = 7 ∧
    first_pass unknown_type_journal (jh_nbytes_used unknown_type_journal) loop_fuel 8 0
      = .unknown_type ∧
    do_install sample_sb (sample_image unknown_type_journal)
      = .returned 0 .Empty (sample_image unknown_type_journal) :=
  ⟨by decide, by decide, by decide, by decide,
    do_install_within_header _ _ (by decide) (by decide)⟩

/-- Claim C10: on an image whose journal magic is not 0x4A524E4C, `do_install`
returns -1 with "Invalid journal magic", and so does `do_create` once its
name, root-type, duplicate, slot and inode checks have passed; both leave the
image as they found it. -/
theorem bad_journal_magic_rejected (sb : superblock) (img : Image)
    (hm : jh_magic (img sb.journal_block) ≠ JOURNAL_MAGIC) :
    do_install sb img = .returned (-1) .CorruptJournal img ∧
    ∀ (filename : List Nat) (now : Nat) (new_inum : Int),
      strlen filename < NAME_LEN →
      inode_type (read_inode sb img 0) = 2 →
      find_dirent_by_name (img (inode_direct (read_inode sb img 0) 0)) filename < 0 →
      0 ≤ find_free_dirent_slot (img (inode_direct (read_inode sb img 0) 0)) →
      find_free_inode sb (img sb.inode_bitmap) = some new_inum →
      0 ≤ new_inum →
      do_create sb img filename now = .returned (-1) .CorruptJournal img := by
  refine ⟨do_install_bad_magic sb img hm, ?_⟩
  intro filename now new_inum h1 h2 h3 h4 h5 h6
  rw [do_create_checks_passed sb img filename now new_inum h1 h2 h3 h4 h5 h6]
  exact write_to_journal_bad_magic _ _ _ _ _ _ _ hm

theorem bad_journal_magic_rejected_witness :
    jh_magic (sample_image unformatted_journal sample_sb.journal_block) ≠ JOURNAL_MAGIC ∧
    do_install sample_sb (sample_image unformatted_journal)
      = .returned (-1) .CorruptJournal (sample_image unformatted_journal) ∧
    do_create sample_sb (sample_image unformatted_journal) hello 0
      = .returned (-1) .CorruptJournal (sample_image unformatted_journal) :=
  ⟨by decide,
    (bad_journal_magic_rejected sample_sb (sample_image unformatted_journal) (by decide)).1,
    (bad_journal_magic_rejected sample_sb (sample_image unformatted_journal) (by decide)).2
      hello 0 1 (by decide) (by decide) (by decide) (by decide) (by decide) (by decide)⟩

/-- Claim C11: on an image whose journal block has the JRNL magic and is clean
(`nbytes_used = 8`), `do_install` returns 0 with "Journal is empty" and
leaves every block of the image as it found it. -/
theorem clean_journal_install_empty (sb : superblock) (img : Image)
    (hm : jh_magic (img sb.journal_block) = JOURNAL_MAGIC)
    (hc : jh_nbytes_used (img sb.journal_block) = 8) :
    ∃ img1, do_install sb img = .returned 0 .Empty img1 ∧ ∀ n, img1 n = img n :=
  ⟨img, do_install_within_header sb img hm (by rw [hc]; decide), fun _ => rfl⟩

theorem clean_journal_install_empty_witness :
    jh_magic (sample_image clean_journal sample_sb.journal_block) = JOURNAL_MAGIC ∧
    jh_nbytes_used (sample_image clean_journal sample_sb.journal_block) = 8 ∧
    ∃ img1, do_install sample_sb (sample_image clean_journal) = .returned 0 .Empty img1 ∧
      ∀ n, img1 n = sample_image clean_journal n :=
  ⟨by decide, by decide,
    clean_journal_install_empty sample_sb (sample_image clean_journal) (by decide) (by decide)⟩

/-! ## Bitmaps and scans -/

theorem check_bit_zero_or_one (bitmap : Block) (i : Nat) :
    check_bit bitmap i = 0 ∨ check_bit bitmap i = 1 := by
  by_cases h : byte bitmap (i / 8) &&& (1 <<< (i % 8)) ≠ 0
  · exact Or.inr (if_pos h)
  · exact Or.inl (if_neg h)

theorem check_bit_ne_zero_iff (bitmap : Block) (i : Nat) :
    check_bit bitmap i ≠ 0 ↔ check_bit bitmap i = 1 := by
  rcases check_bit_zero_or_one bitmap i with h | h <;> rw [h] <;> decide

/-- The scan of a bitmap from bit `i` over `remaining` bits that all lie inside
the 4096-byte buffer: it ends on the first clear bit, or on -1 when there is none. -/
theorem scan_free_bit_spec (bitmap : Block) :
    ∀ (remaining i : Nat), i + remaining ≤ BLOCK_SIZE * 8 →
      (scan_free_bit bitmap remaining i = some (-1) ∧
        ∀ j, i ≤ j → j < i + remaining → check_bit bitmap j = 1) ∨
      (∃ m, i ≤ m ∧ m < i + remaining ∧ scan_free_bit bitmap remaining i = some (m : Int) ∧
        check_bit bitmap m = 0 ∧ ∀ j, i ≤ j → j < m → check_bit bitmap j = 1) := by
  intro remaining
  induction remaining with
  | zero =>
    intro i _
    exact Or.inl ⟨rfl, fun j h1 h2 => absurd h2 (by omega)⟩
  | succ r ih =>
    intro i hi
    have hi2 : i + (r + 1) ≤ 32768 := hi
    have hb : ¬ BLOCK_SIZE ≤ i / 8 := by
      show ¬ 4096 ≤ i / 8
      omega
    have step : scan_free_bit bitmap (r + 1) i =
        if check_bit bitmap i = 0 then some (i : Int) else scan_free_bit bitmap r (i + 1) := by
      rw [scan_free_bit, if_neg hb]
    by_cases h0 : check_bit bitmap i = 0
    · refine Or.inr ⟨i, Nat.le_refl i, by omega, ?_, h0, fun j h1 h2 => absurd h2 (by omega)⟩
      rw [step, if_pos h0]
    · have h1 : check_bit bitmap i = 1 := (check_bit_ne_zero_iff bitmap i).mp h0
      rw [step, if_neg h0]
      rcases ih (i + 1) (by show i + 1 + r ≤ 32768; omega) with ⟨e, hall⟩ | ⟨m, hm1, hm2, e, hz, hall⟩
      · refine Or.inl ⟨e, fun j hj1 hj2 => ?_⟩
        by_cases hji : j = i
        · rw [hji]; exact h1
        · exact hall j (by omega) (by omega)
      · refine Or.inr ⟨m, by omega, by omega, e, hz, fun j hj1 hj2 => ?_⟩
        by_cases hji : j = i
        · rw [hji]; exact h1
        · exact hall j (by omega) hj2

/-- Claim C15: on a 4096-byte bitmap and a limit of at most 32768 bits,
`find_free_bit`, and `find_free_inode` with `inode_count` equal to the limit,
return the same value: -1 exactly when every bit below the limit is set, and
otherwise the smallest index below the limit whose bit is clear. -/
theorem find_free_bit_smallest (bitmap : Block) (sb : superblock) (limit : Nat)
    (hl : limit ≤ 32768) (hc : sb.inode_count = limit) :
    ∃ r : Int, find_free_bit bitmap (limit : Int) = some r ∧ find_free_inode sb bitmap = some r ∧
      (r = -1 ↔ ∀ j, j < limit → check_bit bitmap j = 1) ∧
      (r ≠ -1 → ∃ i : Nat, r = (i : Int) ∧ i < limit ∧ check_bit bitmap i = 0 ∧
        ∀ j, j < i → check_bit bitmap j = 1) := by
  have e1 : find_free_bit bitmap (limit : Int) = scan_free_bit bitmap limit 0 := by
    unfold find_free_bit
    rw [Int.toNat_ofNat]
  have e2 : find_free_inode sb bitmap = scan_free_bit bitmap limit 0 := by
    unfold find_free_inode
    rw [hc]
  rw [e1, e2]
  rcases scan_free_bit_spec bitmap limit 0 (by show 0 + limit ≤ 32768; omega) with
    ⟨e, hall⟩ | ⟨m, _, hm2, e, hz, hall⟩
  · refine ⟨-1, e, e, ⟨fun _ j hj => hall j (Nat.zero_le j) (by omega), fun _ => rfl⟩, ?_⟩
    intro hne
    exact absurd rfl hne
  · refine ⟨(m : Int), e, e, ⟨fun hneg => ?_, fun hall1 => ?_⟩, fun _ => ?_⟩
    · exact absurd hneg (by omega)
    · have := hall1 m (by omega)
      rw [hz] at this
      exact absurd this (by decide)
    · exact ⟨m, rfl, by omega, hz, fun j hj => hall j (Nat.zero_le j) hj⟩

theorem find_free_bit_smallest_witness :
    (32 : Nat) ≤ 32768 ∧ sample_sb.inode_count = 32 ∧
    ∃ r : Int, find_free_bit three_bit_bitmap ((32 : Nat) : Int) = some r ∧
      find_free_inode sample_sb three_bit_bitmap = some r ∧
      (r = -1 ↔ ∀ j, j < 32 → check_bit three_bit_bitmap j = 1) ∧
      (r ≠ -1 → ∃ i : Nat, r = (i : Int) ∧ i < 32 ∧ check_bit three_bit_bitmap i = 0 ∧
        ∀ j, j < i → check_bit three_bit_bitmap j = 1) :=
  ⟨by decide, by decide,
    find_free_bit_smallest three_bit_bitmap sample_sb 32 (by decide) (by decide)⟩

/-- The loop of `find_free_dirent_slot` from slot `i`: it ends on the first
slot whose inode field is zero, or on -1 when there is none. -/
theorem scan_free_dirent_spec (dir_block : Block) :
    ∀ (remaining i : Nat),
      (scan_free_dirent dir_block remaining i = -1 ∧
        ∀ j, i ≤ j → j < i + remaining → dirent_inode dir_block j ≠ 0) ∨
      (∃ m, i ≤ m ∧ m < i + remaining ∧ scan_free_dirent dir_block remaining i = (m : Int) ∧
        dirent_inode dir_block m = 0 ∧ ∀ j, i ≤ j → j < m → dirent_inode dir_block j ≠ 0) := by
  intro remaining
  induction remaining with
  | zero =>
    intro i
    exact Or.inl ⟨rfl, fun j h1 h2 => absurd h2 (by omega)⟩
  | succ r ih =>
    intro i
    by_cases h0 : dirent_inode dir_block i = 0
    · refine Or.inr ⟨i, Nat.le_refl i, by omega, ?_, h0, fun j h1 h2 => absurd h2 (by omega)⟩
      rw [scan_free_dirent, if_pos h0]
    · rw [scan_free_dirent, if_neg h0]
      rcases ih (i + 1) with ⟨e, hall⟩ | ⟨m, hm1, hm2, e, hz, hall⟩
      · refine Or.inl ⟨e, fun j hj1 hj2 => ?_⟩
        by_cases hji : j = i
        · rw [hji]; exact h0
        · exact hall j (by omega) (by omega)
      · refine Or.inr ⟨m, by omega, by omega, e, hz, fun j hj1 hj2 => ?_⟩
        by_cases hji : j = i
        · rw [hji]; exact h0
        · exact hall j (by omega) hj2

theorem le32_eq_zero_iff (b : Block) (off : Nat) :
    le32 b off = 0 ↔
      byte b off = 0 ∧ byte b (off + 1) = 0 ∧ byte b (off + 2) = 0 ∧ byte b (off + 3) = 0 := by
  unfold le32
  omega

/-- Claim C16: `find_free_dirent_slot` returns -1 exactly when all 128 slots
have a nonzero inode field, and otherwise the lowest slot whose inode field,
the four bytes from offset `32 * s`, is zero. -/
theorem find_free_dirent_slot_lowest (dir_block : Block) :
    (find_free_dirent_slot dir_block = -1 ↔
      ∀ s, s < 128 → dirent_inode dir_block s ≠ 0) ∧
    (find_free_dirent_slot dir_block ≠ -1 →
      ∃ s : Nat, find_free_dirent_slot dir_block = (s : Int) ∧ s < 128 ∧
        dirent_inode dir_block s = 0 ∧ ∀ t, t < s → dirent_inode dir_block t ≠ 0) ∧
    (∀ s, dirent_inode dir_block s = 0 ↔
      byte dir_block (32 * s) = 0 ∧ byte dir_block (32 * s + 1) = 0 ∧
      byte dir_block (32 * s + 2) = 0 ∧ byte dir_block (32 * s + 3) = 0) := by
  refine ⟨?_, ?_, ?_⟩
  · rcases scan_free_dirent_spec dir_block DIRENTS_PER_BLOCK 0 with
      ⟨e, hall⟩ | ⟨m, _, hm2, e, hz, _⟩
    · exact ⟨fun _ s hs => hall s (Nat.zero_le s) (by show s < 0 + 128; omega), fun _ => e⟩
    · have hm : m < 128 := by
        have : m < 0 + 128 := hm2
        omega
      constructor
      · intro hneg
        have e2 : find_free_dirent_slot dir_block = (m : Int) := e
        rw [e2] at hneg
        exact absurd hneg (by omega)
      · intro hall
        exact absurd hz (hall m hm)
  · intro hne
    rcases scan_free_dirent_spec dir_block DIRENTS_PER_BLOCK 0 with
      ⟨e, _⟩ | ⟨m, _, hm2, e, hz, hall⟩
    · exact absurd e hne
    · have hm : m < 0 + 128 := hm2
      exact ⟨m, e, by omega, hz, fun t ht => hall t (Nat.zero_le t) ht⟩
  · intro s
    have e : dirent_inode dir_block s = le32 dir_block (32 * s) := by
      show le32 dir_block (s * 32) = le32 dir_block (32 * s)
      rw [Nat.mul_comm]
    rw [e]
    exact le32_eq_zero_iff dir_block (32 * s)

/-- The mask test of `check_bit` is the test of one bit. -/
theorem mask_ne_zero_iff (x k : Nat) : x &&& (1 <<< k) ≠ 0 ↔ x.testBit k = true := by
  rw [Nat.one_shiftLeft, Nat.and_two_pow]
  have hp : 2 ^ k ≠ 0 := Nat.pos_iff_ne_zero.mp (Nat.two_pow_pos k)
  cases x.testBit k <;> simp [hp]

theorem mask_eq_iff (x k : Nat) : x &&& (1 <<< k) = 1 <<< k ↔ x.testBit k = true := by
  rw [Nat.one_shiftLeft, Nat.and_two_pow]
  have hp : 2 ^ k ≠ 0 := Nat.pos_iff_ne_zero.mp (Nat.two_pow_pos k)
  cases x.testBit k <;> simp [hp]
  exact fun h => hp h.symm

theorem check_bit_eq_one_iff (bitmap : Block) (i : Nat) :
    check_bit bitmap i = 1 ↔ (byte bitmap (i / 8)).testBit (i % 8) = true := by
  rw [← mask_ne_zero_iff]
  by_cases h : byte bitmap (i / 8) &&& (1 <<< (i % 8)) ≠ 0
  · have e : check_bit bitmap i = 1 := if_pos h
    exact ⟨fun _ => h, fun _ => e⟩
  · have e : check_bit bitmap i = 0 := if_neg h
    constructor
    · intro h1
      rw [e] at h1
      exact absurd h1 (by decide)
    · intro h1
      exact absurd h1 h

/-- Claim C17: for an index inside a 4096-byte bitmap, `check_bit` returns 1
exactly when byte `i / 8` has the bit of mask `1 << (i % 8)` set, and returns 0
otherwise. -/
theorem check_bit_reads_mask (bitmap : Block) (i : Nat) (_hi : i < 32768) :
    (check_bit bitmap i = 1 ↔
      byte bitmap (i / 8) &&& (1 <<< (i % 8)) = 1 <<< (i % 8)) ∧
    (check_bit bitmap i = 1 ↔ (byte bitmap (i / 8)).testBit (i % 8) = true) ∧
    (check_bit bitmap i ≠ 1 → check_bit bitmap i = 0) := by
  refine ⟨?_, check_bit_eq_one_iff bitmap i, ?_⟩
  · rw [mask_eq_iff]
    exact check_bit_eq_one_iff bitmap i
  · intro h
    rcases check_bit_zero_or_one bitmap i with h0 | h1
    · exact h0
    · exact absurd h1 h

theorem check_bit_reads_mask_witness :
    (10 : Nat) < 32768 ∧
    ((check_bit (block_of [0, 4]) 10 = 1 ↔
      byte (block_of [0, 4]) (10 / 8) &&& (1 <<< (10 % 8)) = 1 <<< (10 % 8)) ∧
    (check_bit (block_of [0, 4]) 10 = 1 ↔ (byte (block_of [0, 4]) (10 / 8)).testBit (10 % 8) = true) ∧
    (check_bit (block_of [0, 4]) 10 ≠ 1 → check_bit (block_of [0, 4]) 10 = 0)) :=
  ⟨by decide, check_bit_reads_mask (block_of [0, 4]) 10 (by decide)⟩

theorem byte_set_bit (bitmap : Block) (i n : Nat) :
    byte (set_bit bitmap i) n =
      if n = i / 8 then (byte bitmap (i / 8) ||| (1 <<< (i % 8))) % 256 else byte bitmap n := by
  by_cases h : n = i / 8
  · rw [if_pos h]
    show (if n = i / 8 then (byte bitmap (i / 8) ||| (1 <<< (i % 8))) % 256 else bitmap n) % 256 = _
    rw [if_pos h, Nat.mod_mod]
  · rw [if_neg h]
    show (if n = i / 8 then (byte bitmap (i / 8) ||| (1 <<< (i % 8))) % 256 else bitmap n) % 256 = _
    rw [if_neg h]
    rfl

/-- A bit of the byte that `set_bit` has rewritten. -/
theorem testBit_set_byte (x k m : Nat) (hm : m < 8) :
    ((x ||| (1 <<< k)) % 256).testBit m = (x.testBit m || decide (k = m)) := by
  have e : (256 : Nat) = 2 ^ 8 := by decide
  rw [e, Nat.testBit_mod_two_pow, Nat.testBit_or, Nat.one_shiftLeft, Nat.testBit_two_pow]
  simp [hm]

/-- Claim C18: for indices inside a 4096-byte bitmap, after `set_bit(bitmap, i)`
`check_bit(bitmap, i)` is 1, and for every other index `check_bit` returns
what it returned before. -/
theorem set_bit_sets_only_bit (bitmap : Block) (i j : Nat) (_hi : i < 32768) (_hj : j < 32768) :
    check_bit (set_bit bitmap i) i = 1 ∧
    (j ≠ i → check_bit (set_bit bitmap i) j = check_bit bitmap j) := by
  constructor
  · rw [check_bit_eq_one_iff, byte_set_bit, if_pos rfl,
      testBit_set_byte _ _ _ (Nat.mod_lt i (by decide))]
    simp
  · intro hne
    have key : (check_bit (set_bit bitmap i) j = 1 ↔ check_bit bitmap j = 1) := by
      rw [check_bit_eq_one_iff, check_bit_eq_one_iff, byte_set_bit]
      by_cases hb : j / 8 = i / 8
      · rw [if_pos hb, testBit_set_byte _ _ _ (Nat.mod_lt j (by decide)), hb]
        have hk : i % 8 ≠ j % 8 := by omega
        simp [hk]
      · rw [if_neg hb]
    rcases check_bit_zero_or_one (set_bit bitmap i) j with a | a <;>
      rcases check_bit_zero_or_one bitmap j with b | b
    · rw [a, b]
    · exact absurd (key.mpr b) (by rw [a]; decide)
    · exact absurd (key.mp a) (by rw [b]; decide)
    · rw [a, b]

theorem set_bit_sets_only_bit_witness :
    (10 : Nat) < 32768 ∧ (3 : Nat) < 32768 ∧
    check_bit (set_bit three_bit_bitmap 10) 10 = 1 ∧
    ((3 : Nat) ≠ 10 → check_bit (set_bit three_bit_bitmap 10) 3 = check_bit three_bit_bitmap 3) :=
  ⟨by decide, by decide, set_bit_sets_only_bit three_bit_bitmap 10 3 (by decide) (by decide)⟩

/-! ## Names -/

theorem strlen_nil : strlen [] = 0 := rfl

theorem strlen_cons (c : Nat) (cs : List Nat) :
    strlen (c :: cs) = if c % 256 = 0 then 0 else strlen cs + 1 := by
  unfold strlen
  by_cases h : c % 256 = 0
  · simp [List.takeWhile_cons, h]
  · simp [List.takeWhile_cons, h]

theorem byte_cstr_zero (c : Nat) (cs : List Nat) : byte (cstr (c :: cs)) 0 = c % 256 := rfl

theorem byte_cstr_succ (c : Nat) (cs : List Nat) (j : Nat) :
    byte (cstr (c :: cs)) (j + 1) = byte (cstr cs) j := rfl

theorem byte_cstr_nil (j : Nat) : byte (cstr []) j = 0 := rfl

/-- The bytes of a C string before position `strlen` are not NUL. -/
theorem byte_cstr_lt_strlen : ∀ (name : List Nat) (j : Nat), j < strlen name →
    byte (cstr name) j ≠ 0
  | [], j, h => absurd h (by rw [strlen_nil]; omega)
  | c :: cs, j, h => by
    rw [strlen_cons] at h
    by_cases hc : c % 256 = 0
    · rw [if_pos hc] at h
      exact absurd h (by omega)
    · rw [if_neg hc] at h
      cases j with
      | zero => rw [byte_cstr_zero]; exact hc
      | succ j => rw [byte_cstr_succ]; exact byte_cstr_lt_strlen cs j (by omega)

/-- The byte of a C string at position `strlen` is its NUL. -/
theorem byte_cstr_strlen : ∀ (name : List Nat), byte (cstr name) (strlen name) = 0
  | [] => rfl
  | c :: cs => by
    rw [strlen_cons]
    by_cases hc : c % 256 = 0
    · rw [if_pos hc, byte_cstr_zero]; exact hc
    · rw [if_neg hc, byte_cstr_succ]; exact byte_cstr_strlen cs

/-- `strncmp` returns 0 exactly when the two strings agree at every position
it reaches, a position being reached when no earlier byte is NUL. -/
theorem strncmp_from_eq_zero_iff (a b : Block) :
    ∀ (n k : Nat), strncmp_from a b n k = 0 ↔
      ∀ j, j < n → (∀ l, l < j → byte a (k + l) ≠ 0) → byte a (k + j) = byte b (k + j) := by
  intro n
  induction n with
  | zero =>
    intro k
    exact ⟨fun _ j hj => absurd hj (by omega), fun _ => rfl⟩
  | succ n ih =>
    intro k
    rw [strncmp_from]
    by_cases hne : byte a k ≠ byte b k
    · rw [if_pos hne]
      constructor
      · intro h
        exact absurd (by omega : byte a k = byte b k) hne
      · intro h
        exact absurd (h 0 (by omega) (fun l hl => absurd hl (by omega))) hne
    · have heq : byte a k = byte b k := not_not.mp hne
      rw [if_neg hne]
      by_cases hz : byte a k = 0
      · rw [if_pos hz]
        refine ⟨fun _ j hj hreach => ?_, fun _ => rfl⟩
        cases j with
        | zero => exact heq
        | succ j => exact absurd hz (hreach 0 (by omega))
      · rw [if_neg hz, ih (k + 1)]
        constructor
        · intro h j hj hreach
          cases j with
          | zero => exact heq
          | succ j =>
            have e : k + (j + 1) = k + 1 + j := by omega
            rw [e]
            refine h j (by omega) (fun l hl => ?_)
            have e2 : k + 1 + l = k + (l + 1) := by omega
            rw [e2]
            exact hreach (l + 1) (by omega)
        · intro h j hj hreach
          have e : k + 1 + j = k + (j + 1) := by omega
          rw [e]
          refine h (j + 1) (by omega) (fun l hl => ?_)
          cases l with
          | zero => exact hz
          | succ l =>
            have e2 : k + (l + 1) = k + 1 + l := by omega
            rw [e2]
            exact hreach l (by omega)

/-- What `strncmp(field, name, 28) == 0` says of a name field. -/
theorem strncmp_name_eq_zero_iff (a : Block) (name : List Nat) :
    strncmp a (cstr name) NAME_LEN = 0 ↔
      (∀ j, j < min NAME_LEN (strlen name) → byte a j = byte (cstr name) j) ∧
      (strlen name < NAME_LEN → byte a (strlen name) = 0) := by
  unfold strncmp
  rw [strncmp_from_eq_zero_iff]
  constructor
  · intro h
    have hpre : ∀ j, j < min NAME_LEN (strlen name) →
        byte a j = byte (cstr name) j ∧ byte a j ≠ 0 := by
      intro j
      induction j using Nat.strong_induction_on with
      | _ j ihj =>
        intro hj
        have e := h j (by omega) (fun l hl => by
          rw [Nat.zero_add]
          exact (ihj l hl (by omega)).2)
        rw [Nat.zero_add] at e
        exact ⟨e, by rw [e]; exact byte_cstr_lt_strlen name j (by omega)⟩
    refine ⟨fun j hj => (hpre j hj).1, fun hlt => ?_⟩
    have e := h (strlen name) hlt (fun l hl => by
      rw [Nat.zero_add]
      exact (hpre l (by omega)).2)
    rw [Nat.zero_add, byte_cstr_strlen] at e
    exact e
  · intro ⟨h1, h2⟩ j hj hreach
    rw [Nat.zero_add]
    rcases Nat.lt_trichotomy j (strlen name) with hlt | heq | hgt
    · exact h1 j (by omega)
    · rw [heq, byte_cstr_strlen]
      exact h2 (by omega)
    · have hz := h2 (by omega)
      have hnz := hreach (strlen name) hgt
      rw [Nat.zero_add] at hnz
      exact absurd hz hnz

/-- The loop of `find_dirent_by_name` from slot `i`: it ends on the first slot
in use whose name `strncmp` accepts, or on -1 when there is none. -/
theorem scan_dirent_by_name_spec (dir_block : Block) (name : List Nat) :
    ∀ (remaining i : Nat),
      (scan_dirent_by_name dir_block name remaining i = -1 ∧
        ∀ j, i ≤ j → j < i + remaining → ¬ strncmp_name_match dir_block name j) ∨
      (∃ m, i ≤ m ∧ m < i + remaining ∧
        scan_dirent_by_name dir_block name remaining i = (m : Int) ∧
        strncmp_name_match dir_block name m ∧
        ∀ j, i ≤ j → j < m → ¬ strncmp_name_match dir_block name j) := by
  have hmatch : ∀ s, (dirent_inode dir_block s ≠ 0 ∧
      strncmp (dirent_name dir_block s) (cstr name) NAME_LEN = 0) ↔
      strncmp_name_match dir_block name s := by
    intro s
    unfold strncmp_name_match
    rw [strncmp_name_eq_zero_iff]
  intro remaining
  induction remaining with
  | zero =>
    intro i
    exact Or.inl ⟨rfl, fun j h1 h2 => absurd h2 (by omega)⟩
  | succ r ih =>
    intro i
    rw [scan_dirent_by_name]
    by_cases h0 : dirent_inode dir_block i ≠ 0 ∧
        strncmp (dirent_name dir_block i) (cstr name) NAME_LEN = 0
    · rw [if_pos h0]
      exact Or.inr ⟨i, Nat.le_refl i, by omega, rfl, (hmatch i).mp h0,
        fun j h1 h2 => absurd h2 (by omega)⟩
    · rw [if_neg h0]
      have hno : ¬ strncmp_name_match dir_block name i := fun hm => h0 ((hmatch i).mpr hm)
      rcases ih (i + 1) with ⟨e, hall⟩ | ⟨m, hm1, hm2, e, hz, hall⟩
      · refine Or.inl ⟨e, fun j hj1 hj2 => ?_⟩
        by_cases hji : j = i
        · rw [hji]; exact hno
        · exact hall j (by omega) (by omega)
      · refine Or.inr ⟨m, by omega, by omega, e, hz, fun j hj1 hj2 => ?_⟩
        by_cases hji : j = i
        · rw [hji]; exact hno
        · exact hall j (by omega) hj2

/-- The function `find_dirent_by_name` finds a slot exactly when `strncmp` accepts one. -/
theorem find_dirent_by_name_nonneg_iff (dir_block : Block) (name : List Nat) :
    0 ≤ find_dirent_by_name dir_block name ↔
      ∃ s, s < 128 ∧ strncmp_name_match dir_block name s := by
  rcases scan_dirent_by_name_spec dir_block name DIRENTS_PER_BLOCK 0 with
    ⟨e, hall⟩ | ⟨m, _, hm2, e, hz, _⟩
  · have e2 : find_dirent_by_name dir_block name = -1 := e
    constructor
    · intro h
      rw [e2] at h
      exact absurd h (by decide)
    · intro ⟨s, hs, hm⟩
      exact absurd hm (hall s (Nat.zero_le s) (by show s < 0 + 128; omega))
  · have e2 : find_dirent_by_name dir_block name = (m : Int) := e
    have hm : m < 0 + 128 := hm2
    exact ⟨fun _ => ⟨m, by omega, hz⟩, fun _ => by rw [e2]; omega⟩

/-- Claim C13 as stated fails on a name field with bytes after its NUL.  Slot 0
of `junk_dir` holds "hello", NUL, "x": no slot satisfies the three conditions
of the claim, which then has `find_dirent_by_name` return -1, yet the function
returns slot 0. -/
theorem find_dirent_by_name_ignores_bytes_after_nul :
    find_dirent_by_name junk_dir hello = 0 ∧
    byte (dirent_name junk_dir 0) 6 = 120 ∧
    ∀ s, s < 128 → ¬ strict_name_match junk_dir hello s := by
  decide

/-- Claim C13, amended: `find_dirent_by_name` returns -1 exactly when no slot
in [0, 128) has a nonzero inode field and a name field that equals the name on
its first `min(28, strlen(name))` bytes and, when the name is shorter than 28
bytes, has a NUL right after them; otherwise it returns the lowest such slot.
The bytes of the name field after that NUL are not examined. -/
theorem find_dirent_by_name_lowest_match (dir_block : Block) (name : List Nat) :
    (find_dirent_by_name dir_block name = -1 ↔
      ∀ s, s < 128 → ¬ strncmp_name_match dir_block name s) ∧
    (find_dirent_by_name dir_block name ≠ -1 →
      ∃ s : Nat, find_dirent_by_name dir_block name = (s : Int) ∧ s < 128 ∧
        strncmp_name_match dir_block name s ∧
        ∀ t, t < s → ¬ strncmp_name_match dir_block name t) := by
  rcases scan_dirent_by_name_spec dir_block name DIRENTS_PER_BLOCK 0 with
    ⟨e, hall⟩ | ⟨m, _, hm2, e, hz, hall⟩
  · refine ⟨⟨fun _ s hs => hall s (Nat.zero_le s) (by show s < 0 + 128; omega), fun _ => e⟩, ?_⟩
    intro hne
    exact absurd e hne
  · have hm : m < 128 := by
      have : m < 0 + 128 := hm2
      omega
    have e2 : find_dirent_by_name dir_block name = (m : Int) := e
    refine ⟨⟨fun hneg => ?_, fun hnone => absurd hz (hnone m hm)⟩, fun _ => ?_⟩
    · rw [e2] at hneg
      exact absurd hneg (by omega)
    · exact ⟨m, e2, hm, hz, fun t ht => hall t (Nat.zero_le t) ht⟩

/-- `strncmp` returns 0 exactly when the two strings, cut at their first NUL
or after `n` bytes, are the same byte sequence. -/
theorem strncmp_from_eq_zero_iff_field_string (a b : Block) :
    ∀ (n k : Nat), strncmp_from a b n k = 0 ↔ field_string a n k = field_string b n k := by
  intro n
  induction n with
  | zero =>
    intro k
    exact ⟨fun _ => rfl, fun _ => rfl⟩
  | succ n ih =>
    intro k
    rw [strncmp_from, field_string, field_string]
    by_cases hne : byte a k ≠ byte b k
    · rw [if_pos hne]
      constructor
      · intro h
        exact absurd (by omega : byte a k = byte b k) hne
      · intro h
        by_cases ha : byte a k = 0
        · by_cases hb : byte b k = 0
          · exact absurd (ha.trans hb.symm) hne
          · rw [if_pos ha, if_neg hb] at h
            exact absurd h (by simp)
        · by_cases hb : byte b k = 0
          · rw [if_neg ha, if_pos hb] at h
            exact absurd h (by simp)
          · rw [if_neg ha, if_neg hb] at h
            exact absurd (List.cons.inj h).1 hne
    · have heq : byte a k = byte b k := not_not.mp hne
      rw [if_neg hne]
      by_cases hz : byte a k = 0
      · rw [if_pos hz, if_pos hz, if_pos (heq ▸ hz)]
        exact ⟨fun _ => rfl, fun _ => rfl⟩
      · rw [if_neg hz, if_neg hz, if_neg (heq ▸ hz), ih (k + 1), heq]
        exact ⟨fun h => by rw [h], fun h => (List.cons.inj h).2⟩

theorem field_string_shift (a b : Block) (h : ∀ j, a (j + 1) = b j) :
    ∀ (n k : Nat), field_string a n (k + 1) = field_string b n k := by
  intro n
  induction n with
  | zero => intro k; rfl
  | succ n ih =>
    intro k
    have e : byte a (k + 1) = byte b k := by
      unfold byte
      rw [h k]
    rw [field_string, field_string, e, ih (k + 1)]

/-- A C string that fits in `n` bytes is read back whole. -/
theorem field_string_cstr : ∀ (name : List Nat) (n : Nat), strlen name ≤ n →
    field_string (cstr name) n 0 = cstr_bytes name
  | [], n, _ => by
    cases n with
    | zero => rfl
    | succ n => rfl
  | c :: cs, n, h => by
    rw [strlen_cons] at h
    by_cases hc : c % 256 = 0
    · have e : cstr_bytes (c :: cs) = [] := if_pos hc
      rw [e]
      cases n with
      | zero => rfl
      | succ n =>
        rw [field_string, byte_cstr_zero]
        exact if_pos hc
    · rw [if_neg hc] at h
      have e : cstr_bytes (c :: cs) = c % 256 :: cstr_bytes cs := if_neg hc
      rw [e]
      cases n with
      | zero => exact absurd h (by omega)
      | succ n =>
        rw [field_string, byte_cstr_zero, if_neg hc,
          field_string_shift (cstr (c :: cs)) (cstr cs) (fun _ => rfl) n 0,
          field_string_cstr cs n (by omega)]

/-- The decision tree of `do_create` down to the duplicate check. -/
theorem do_create_tree (sb : superblock) (img : Image) (filename : List Nat) (now : Nat) :
    (NAME_LEN ≤ strlen filename ∧
      do_create sb img filename now = .returned (-1) .NameTooLong img) ∨
    (strlen filename < NAME_LEN ∧ inode_type (read_inode sb img 0) ≠ 2 ∧
      do_create sb img filename now = .returned (-1) .NotADirectory img) ∨
    (strlen filename < NAME_LEN ∧ inode_type (read_inode sb img 0) = 2 ∧
      0 ≤ find_dirent_by_name (img (inode_direct (read_inode sb img 0) 0)) filename ∧
      do_create sb img filename now = .returned (-1) .AlreadyExists img) ∨
    (strlen filename < NAME_LEN ∧ inode_type (read_inode sb img 0) = 2 ∧
      find_dirent_by_name (img (inode_direct (read_inode sb img 0) 0)) filename < 0 ∧
      (do_create sb img filename now = .returned (-1) .DirFull img ∨
       do_create sb img filename now = .returned (-1) .NoFreeInode img ∨
       do_create sb img filename now = .undefined ∨
       ∃ bm ibn ib rdb db,
         do_create sb img filename now = write_to_journal sb img bm ibn ib rdb db)) := by
  unfold do_create
  by_cases h1 : strlen filename ≥ NAME_LEN
  · exact Or.inl ⟨h1, if_pos h1⟩
  rw [if_neg h1]
  by_cases h2 : inode_type (read_inode sb img 0) ≠ 2
  · exact Or.inr (Or.inl ⟨by omega, h2, if_pos h2⟩)
  simp only [if_neg h2]
  by_cases h3 : find_dirent_by_name (img (inode_direct (read_inode sb img 0) 0)) filename ≥ 0
  · exact Or.inr (Or.inr (Or.inl ⟨by omega, not_not.mp h2, h3, if_pos h3⟩))
  refine Or.inr (Or.inr (Or.inr ⟨by omega, not_not.mp h2, by omega, ?_⟩))
  have e3 : ¬ find_dirent_by_name
      (read_block_raw img (inode_direct (read_inode sb img 0) 0)) filename ≥ 0 := h3
  rw [if_neg e3]
  split
  · exact Or.inl rfl
  split
  · exact Or.inr (Or.inr (Or.inl rfl))
  split
  · exact Or.inr (Or.inl rfl)
  · exact Or.inr (Or.inr (Or.inr ⟨_, _, _, _, _, rfl⟩))

theorem write_to_journal_status (sb : superblock) (img : Image) (bm : Block) (ibn : Nat)
    (ib : Block) (rdb : Nat) (db : Block) :
    (write_to_journal sb img bm ibn ib rdb db).status = some .CorruptJournal ∨
    (write_to_journal sb img bm ibn ib rdb db).status = some .JournalFull := by
  rcases write_to_journal_fails sb img bm ibn ib rdb db with w | w
  · exact Or.inl (by rw [w]; rfl)
  · exact Or.inr (by rw [w]; rfl)

/-- Past the duplicate check `do_create` reports neither NameTooLong nor AlreadyExists. -/
theorem do_create_tail_status (sb : superblock) (img : Image) (filename : List Nat) (now : Nat)
    (h : do_create sb img filename now = .returned (-1) .DirFull img ∨
       do_create sb img filename now = .returned (-1) .NoFreeInode img ∨
       do_create sb img filename now = .undefined ∨
       ∃ bm ibn ib rdb db,
         do_create sb img filename now = write_to_journal sb img bm ibn ib rdb db) :
    (do_create sb img filename now).status ≠ some .NameTooLong ∧
    (do_create sb img filename now).status ≠ some .AlreadyExists := by
  rcases h with e | e | e | ⟨bm, ibn, ib, rdb, db, e⟩
  · rw [e]; exact ⟨by simp [Outcome.status], by simp [Outcome.status]⟩
  · rw [e]; exact ⟨by simp [Outcome.status], by simp [Outcome.status]⟩
  · rw [e]; exact ⟨by simp [Outcome.status], by simp [Outcome.status]⟩
  · rw [e]
    rcases write_to_journal_status sb img bm ibn ib rdb db with w | w
    · rw [w]; exact ⟨by simp, by simp⟩
    · rw [w]; exact ⟨by simp, by simp⟩

/-- Claim C12: with a root inode of type 2 and a name shorter than 28 bytes,
`do_create` reports AlreadyExists exactly when some root directory entry with
a nonzero inode field has a name field whose bytes up to its first NUL, or
all 28 of them when it has none, are the bytes of the name. -/
theorem already_exists_iff (sb : superblock) (img : Image) (filename : List Nat) (now : Nat)
    (hroot : inode_type (read_inode sb img 0) = 2) (hlen : strlen filename < NAME_LEN) :
    (do_create sb img filename now).status = some .AlreadyExists ↔
      ∃ s, s < 128 ∧ dirent_inode (img (inode_direct (read_inode sb img 0) 0)) s ≠ 0 ∧
        field_string (dirent_name (img (inode_direct (read_inode sb img 0) 0)) s) NAME_LEN 0
          = cstr_bytes filename := by
  have hname : ∀ s, strncmp_name_match (img (inode_direct (read_inode sb img 0) 0)) filename s ↔
      (dirent_inode (img (inode_direct (read_inode sb img 0) 0)) s ≠ 0 ∧
        field_string (dirent_name (img (inode_direct (read_inode sb img 0) 0)) s) NAME_LEN 0
          = cstr_bytes filename) := by
    intro s
    have e := strncmp_name_eq_zero_iff
      (dirent_name (img (inode_direct (read_inode sb img 0) 0)) s) filename
    unfold strncmp at e
    rw [strncmp_from_eq_zero_iff_field_string,
      field_string_cstr filename NAME_LEN (by omega)] at e
    unfold strncmp_name_match
    rw [e]
  have hfind := find_dirent_by_name_nonneg_iff (img (inode_direct (read_inode sb img 0) 0)) filename
  rcases do_create_tree sb img filename now with
    ⟨h1, _⟩ | ⟨_, h2, _⟩ | ⟨_, _, h3, e⟩ | ⟨_, _, h3, e⟩
  · exact absurd hlen (by omega)
  · exact absurd hroot h2
  · refine ⟨fun _ => ?_, fun _ => by rw [e]; rfl⟩
    obtain ⟨s, hs, hm⟩ := hfind.mp h3
    exact ⟨s, hs, (hname s).mp hm⟩
  · refine ⟨fun h => absurd h (do_create_tail_status sb img filename now e).2, ?_⟩
    intro ⟨s, hs, hm⟩
    have hpos := hfind.mpr ⟨s, hs, (hname s).mpr hm⟩
    exact absurd hpos (by omega)

theorem already_exists_iff_witness :
    inode_type (read_inode sample_sb (sample_image_with_files clean_journal) 0) = 2 ∧
    strlen hello < NAME_LEN ∧
    (do_create sample_sb (sample_image_with_files clean_journal) hello 0).status
      = some .AlreadyExists ∧
    ((do_create sample_sb (sample_image_with_files clean_journal) hello 0).status
        = some .AlreadyExists ↔
      ∃ s, s < 128 ∧
        dirent_inode (sample_image_with_files clean_journal
          (inode_direct (read_inode sample_sb (sample_image_with_files clean_journal) 0) 0)) s ≠ 0 ∧
        field_string (dirent_name (sample_image_with_files clean_journal
          (inode_direct (read_inode sample_sb (sample_image_with_files clean_journal) 0) 0)) s)
          NAME_LEN 0 = cstr_bytes hello) :=
  ⟨by decide, by decide, by decide,
    already_exists_iff sample_sb (sample_image_with_files clean_journal) hello 0
      (by decide) (by decide)⟩

/-- Claim C14: `do_create` reports NameTooLong exactly when the name is 28
bytes or longer, and a name that long is rejected with NameTooLong whatever
the image holds, the image being left as it was. -/
theorem name_too_long_iff (sb : superblock) (img : Image) (filename : List Nat) (now : Nat) :
    ((do_create sb img filename now).status = some .NameTooLong ↔ NAME_LEN ≤ strlen filename) ∧
    (NAME_LEN ≤ strlen filename →
      do_create sb img filename now = .returned (-1) .NameTooLong img) := by
  have hlong : NAME_LEN ≤ strlen filename →
      do_create sb img filename now = .returned (-1) .NameTooLong img := by
    intro h
    unfold do_create
    exact if_pos h
  refine ⟨⟨fun h => ?_, fun h => by rw [hlong h]; rfl⟩, hlong⟩
  rcases do_create_tree sb img filename now with
    ⟨h1, _⟩ | ⟨_, _, e⟩ | ⟨_, _, _, e⟩ | ⟨_, _, _, e⟩
  · exact h1
  · rw [e] at h
    exact absurd h (by simp [Outcome.status])
  · rw [e] at h
    exact absurd h (by simp [Outcome.status])
  · exact absurd h (do_create_tail_status sb img filename now e).1

theorem name_too_long_iff_witness :
    NAME_LEN ≤ strlen long_name ∧
    ((do_create sample_sb zero_image long_name 0).status = some .NameTooLong ↔
      NAME_LEN ≤ strlen long_name) ∧
    do_create sample_sb zero_image long_name 0 = .returned (-1) .NameTooLong zero_image :=
  ⟨by decide, (name_too_long_iff sample_sb zero_image long_name 0).1,
    (name_too_long_iff sample_sb zero_image long_name 0).2 (by decide)⟩

/-! ## Inode slots -/

/-- Claim C19: `read_inode` returns the 128 bytes at offset `(n % 32) * 128` of
block `inode_start + n / 32`, the block number being computed in `uint32_t`;
and `write_inode_to_buffer(buf, n % 32, inode)` puts the 128 bytes of the
inode in that slice of `buf` and leaves the other 31 slots as they were. -/
theorem inode_slot_layout (sb : superblock) (img : Image) (n : Nat) (buf inode : Block) :
    (∀ k, k < 128 →
      read_inode sb img n k = img ((sb.inode_start + n / 32) % U32) ((n % 32) * 128 + k)) ∧
    (sb.inode_start + n / 32 < U32 → ∀ k, k < 128 →
      read_inode sb img n k = img (sb.inode_start + n / 32) ((n % 32) * 128 + k)) ∧
    (∀ k, k < 128 →
      write_inode_to_buffer buf (n % 32) inode ((n % 32) * 128 + k) = inode k) ∧
    (∀ t k, t < 32 → t ≠ n % 32 → k < 128 →
      write_inode_to_buffer buf (n % 32) inode (t * 128 + k) = buf (t * 128 + k)) := by
  have hread : ∀ k, k < 128 →
      read_inode sb img n k = img ((sb.inode_start + n / 32) % U32) ((n % 32) * 128 + k) := by
    intro k hk
    show (if 0 ≤ k ∧ k < 0 + 128 then
        img ((sb.inode_start + n / 32) % U32) ((n % 32) * 128 + (k - 0))
      else zero_block k) = _
    rw [if_pos ⟨Nat.zero_le k, by omega⟩, Nat.sub_zero]
  refine ⟨hread, fun hlt k hk => ?_, fun k hk => ?_, fun t k ht hne hk => ?_⟩
  · rw [hread k hk, Nat.mod_eq_of_lt hlt]
  · show (if (n % 32) * 128 ≤ (n % 32) * 128 + k ∧ (n % 32) * 128 + k < (n % 32) * 128 + 128
      then inode ((n % 32) * 128 + k - (n % 32) * 128) else buf ((n % 32) * 128 + k)) = _
    rw [if_pos ⟨by omega, by omega⟩, Nat.add_sub_cancel_left]
  · show (if (n % 32) * 128 ≤ t * 128 + k ∧ t * 128 + k < (n % 32) * 128 + 128
      then inode (t * 128 + k - (n % 32) * 128) else buf (t * 128 + k)) = _
    rw [if_neg (by omega)]

theorem inode_slot_layout_witness :
    sample_sb.inode_start + 33 / 32 < U32 ∧
    (∀ k, k < 128 → read_inode sample_sb (sample_image clean_journal) 33 k
      = sample_image clean_journal (sample_sb.inode_start + 33 / 32) ((33 % 32) * 128 + k)) ∧
    (∀ k, k < 128 → write_inode_to_buffer zero_block (33 % 32) (new_file_inode 0)
      ((33 % 32) * 128 + k) = new_file_inode 0 k) :=
  ⟨by decide,
    (inode_slot_layout sample_sb (sample_image clean_journal) 33 zero_block
      (new_file_inode 0)).2.1 (by decide),
    (inode_slot_layout sample_sb (sample_image clean_journal) 33 zero_block
      (new_file_inode 0)).2.2.1⟩

/-! ## Exit codes -/

theorem to_main_value (o : Outcome) : o.to_main.value = o.code := by
  cases o <;> rfl

/-- The `install` command on an image with a valid superblock. -/
theorem main_install (prog : List Nat) (files : List Nat → Option Image) (img : Image) (now : Nat)
    (hf : files str_vsfs_img = some img) (hm : (read_superblock img).magic = FS_MAGIC) :
    main [prog, str_install] files now = (do_install (read_superblock img) img).to_main := by
  have c1 : ¬ strcmp str_install str_create = 0 := by decide
  have c2 : ¬ strcmp str_install str_info = 0 := by decide
  have c3 : strcmp str_install str_install = 0 := by decide
  have a1 : ([prog, str_install] : List (List Nat)).getD 1 [] = str_install := rfl
  have a0 : ([prog, str_install] : List (List Nat)).length = 2 := rfl
  unfold main
  rw [a0, a1]
  simp only [c1, c2, c3, hf, hm, if_true, if_false, ne_eq, not_true_eq_false, not_false_eq_true,
    Nat.lt_irrefl, ge_iff_le, Nat.reduceLeDiff]

/-- The `create` command on an image with a valid superblock. -/
theorem main_create (prog filename : List Nat) (files : List Nat → Option Image) (img : Image)
    (now : Nat)
    (hf : files str_vsfs_img = some img) (hm : (read_superblock img).magic = FS_MAGIC) :
    main [prog, str_create, filename] files now
      = (do_create (read_superblock img) img filename now).to_main := by
  have c1 : strcmp str_create str_create = 0 := by decide
  have c2 : ¬ strcmp str_create str_info = 0 := by decide
  have a1 : ([prog, str_create, filename] : List (List Nat)).getD 1 [] = str_create := rfl
  have a2 : ([prog, str_create, filename] : List (List Nat)).getD 2 [] = filename := rfl
  have a0 : ([prog, str_create, filename] : List (List Nat)).length = 3 := rfl
  unfold main
  rw [a0, a1, a2]
  simp only [c1, c2, hf, hm, if_true, if_false, ne_eq, not_true_eq_false, not_false_eq_true,
    ge_iff_le, Nat.reduceLeDiff, Nat.reduceLT]

/-- Claim C20, evaluated on images with a valid superblock.  For `create` and
`install`, `main` returns the value of `do_create` or `do_install` unchanged.
Creating a file with a 28-byte name, and installing from a journal with a bad
magic, are errors the commands report by returning -1: `main` returns -1,
which the parent process sees as exit status 255, not 1.  An unknown command
on the same image makes `main` return 1. -/
theorem main_returns_minus_one_on_error :
    (∀ (prog filename : List Nat) (files : List Nat → Option Image) (img : Image) (now : Nat),
      files str_vsfs_img = some img → (read_superblock img).magic = FS_MAGIC →
      (main [prog, str_create, filename] files now).value
        = (do_create (read_superblock img) img filename now).code ∧
      (main [prog, str_install] files now).value
        = (do_install (read_superblock img) img).code) ∧
    (read_superblock (sample_disk clean_journal)).magic = FS_MAGIC ∧
    (do_create (read_superblock (sample_disk clean_journal)) (sample_disk clean_journal)
      long_name 0).status = some .NameTooLong ∧
    (main [str_journal, str_create, long_name] (fun _ => some (sample_disk clean_journal)) 0).value
      = some (-1) ∧
    (do_install (read_superblock (sample_disk unformatted_journal))
      (sample_disk unformatted_journal)).status = some .CorruptJournal ∧
    (main [str_journal, str_install] (fun _ => some (sample_disk unformatted_journal)) 0).value
      = some (-1) ∧
    exit_status (-1) = 255 ∧
    (main [str_journal, str_bogus] (fun _ => some (sample_disk clean_journal)) 0).value
      = some 1 := by
  refine ⟨fun prog filename files img now hf hm => ?_, by decide, by decide, by decide, by decide,
    by decide, by decide, by decide⟩
  rw [main_create prog filename files img now hf hm, main_install prog files img now hf hm,
    to_main_value, to_main_value]
  exact ⟨rfl, rfl⟩

/-! ## What `do_create` stages -/

/-- A scan of the bitmap that returns: its value is -1 when every bit scanned
is set, and otherwise the first clear bit, which lies inside the bitmap. -/
theorem scan_free_bit_some (bitmap : Block) :
    ∀ (remaining i : Nat) (r : Int), scan_free_bit bitmap remaining i = some r →
      (r = -1 ∧ ∀ j, i ≤ j → j < i + remaining → check_bit bitmap j = 1) ∨
      (∃ m : Nat, r = (m : Int) ∧ i ≤ m ∧ m < i + remaining ∧ m < 32768 ∧
        check_bit bitmap m = 0 ∧ ∀ j, i ≤ j → j < m → check_bit bitmap j = 1) := by
  intro remaining
  induction remaining with
  | zero =>
    intro i r h
    have e : some (-1 : Int) = some r := h
    exact Or.inl ⟨(Option.some.inj e).symm, fun j h1 h2 => absurd h2 (by omega)⟩
  | succ n ih =>
    intro i r h
    rw [scan_free_bit] at h
    by_cases hb : BLOCK_SIZE ≤ i / 8
    · rw [if_pos hb] at h
      exact absurd h (by simp)
    · rw [if_neg hb] at h
      have hi : i < 32768 := by
        have : ¬ 4096 ≤ i / 8 := hb
        omega
      by_cases h0 : check_bit bitmap i = 0
      · rw [if_pos h0] at h
        exact Or.inr ⟨i, (Option.some.inj h).symm, Nat.le_refl i, by omega, hi, h0,
          fun j h1 h2 => absurd h2 (by omega)⟩
      · rw [if_neg h0] at h
        have h1 : check_bit bitmap i = 1 := (check_bit_ne_zero_iff bitmap i).mp h0
        rcases ih (i + 1) r h with ⟨e, hall⟩ | ⟨m, e, hm1, hm2, hm3, hz, hall⟩
        · refine Or.inl ⟨e, fun j hj1 hj2 => ?_⟩
          by_cases hji : j = i
          · rw [hji]; exact h1
          · exact hall j (by omega) (by omega)
        · refine Or.inr ⟨m, e, by omega, by omega, hm3, hz, fun j hj1 hj2 => ?_⟩
          by_cases hji : j = i
          · rw [hji]; exact h1
          · exact hall j (by omega) hj2

/-- The inode number `do_create` allocates is the smallest clear bit below `inode_count`. -/
theorem create_checks_pass_inum (sb : superblock) (img : Image) (filename : List Nat)
    (slot new_inum : Nat) (h : create_checks_pass sb img filename slot new_inum) :
    new_inum < sb.inode_count ∧ new_inum < 32768 ∧
    check_bit (img sb.inode_bitmap) new_inum = 0 ∧
    ∀ j, j < new_inum → check_bit (img sb.inode_bitmap) j = 1 := by
  have hino : scan_free_bit (img sb.inode_bitmap) sb.inode_count 0 = some (new_inum : Int) :=
    h.2.2.2.2
  rcases scan_free_bit_some _ _ _ _ hino with ⟨e, _⟩ | ⟨m, e, _, hm2, hm3, hz, hall⟩
  · exact absurd e (by omega)
  · have em : new_inum = m := by omega
    rw [em]
    exact ⟨by omega, hm3, hz, fun j hj => hall j (Nat.zero_le j) hj⟩

/-- The slot `do_create` picks is the lowest one whose inode field is zero. -/
theorem create_checks_pass_slot (sb : superblock) (img : Image) (filename : List Nat)
    (slot new_inum : Nat) (h : create_checks_pass sb img filename slot new_inum) :
    slot < 128 ∧ dirent_inode (root_dir_block sb img) slot = 0 ∧
    ∀ t, t < slot → dirent_inode (root_dir_block sb img) t ≠ 0 := by
  have hs : scan_free_dirent (root_dir_block sb img) DIRENTS_PER_BLOCK 0 = (slot : Int) :=
    h.2.2.2.1
  rcases scan_free_dirent_spec (root_dir_block sb img) DIRENTS_PER_BLOCK 0 with
    ⟨e, _⟩ | ⟨m, _, hm2, e, hz, hall⟩
  · rw [e] at hs
    exact absurd hs (by omega)
  · rw [e] at hs
    have em : slot = m := by omega
    have hm : m < 0 + 128 := hm2
    rw [em]
    exact ⟨by omega, hz, fun t ht => hall t (Nat.zero_le t) ht⟩

/-- When the checks pass, `do_create` is its journal phase on the three staged buffers. -/
theorem do_create_staged (sb : superblock) (img : Image) (filename : List Nat) (now : Nat)
    (slot new_inum : Nat) (h : create_checks_pass sb img filename slot new_inum) :
    do_create sb img filename now =
      write_to_journal sb img
        (staged_inode_bitmap (img sb.inode_bitmap) new_inum)
        ((sb.inode_start + new_inum / 32) % U32)
        (staged_inode_block sb img new_inum now)
        (inode_direct (read_inode sb img 0) 0)
        (staged_dir_block (root_dir_block sb img) slot new_inum filename) := by
  obtain ⟨h1, h2, h3, h4, h5⟩ := h
  have e := do_create_checks_passed sb img filename now (new_inum : Int) h1 h2 h3
    (by
      have : find_free_dirent_slot (img (inode_direct (read_inode sb img 0) 0)) = (slot : Int) := h4
      rw [this]
      omega)
    h5 (by omega)
  have hs : find_free_dirent_slot (img (inode_direct (read_inode sb img 0) 0)) = (slot : Int) := h4
  rw [hs, Int.toNat_ofNat, Int.toNat_ofNat] at e
  exact e

theorem staged_dir_block_apply (dir_block : Block) (slot new_inum : Nat) (filename : List Nat)
    (i : Nat) :
    staged_dir_block dir_block slot new_inum filename i =
      if slot * 32 + 31 = i then 0
      else if slot * 32 + 4 ≤ i ∧ i < slot * 32 + 31 then
        (if i - (slot * 32 + 4) < strlen filename then byte (cstr filename) (i - (slot * 32 + 4))
         else 0)
      else if slot * 32 ≤ i ∧ i < slot * 32 + 4 then le_bytes (new_inum % U32) (i - slot * 32)
      else if i < 4096 then dir_block i else 0 := by
  show (if slot * 32 + 4 + 27 ≤ i ∧ i < slot * 32 + 4 + 27 + 1 then 0 % 256
    else if slot * 32 + 4 ≤ i ∧ i < slot * 32 + 4 + 27 then
      (if i - (slot * 32 + 4) < strlen filename then byte (cstr filename) (i - (slot * 32 + 4))
         else 0)
    else if slot * 32 ≤ i ∧ i < slot * 32 + 4 then le_bytes (new_inum % U32) (i - slot * 32)
    else if 0 ≤ i ∧ i < 0 + 4096 then dir_block (i - 0) else zero_block i) = _
  by_cases h1 : slot * 32 + 31 = i
  · rw [if_pos (by omega), if_pos h1]
  · rw [if_neg (by omega), if_neg h1]
    by_cases h2 : slot * 32 + 4 ≤ i ∧ i < slot * 32 + 31
    · rw [if_pos (by omega), if_pos h2]
    · rw [if_neg (by omega), if_neg h2]
      by_cases h3 : slot * 32 ≤ i ∧ i < slot * 32 + 4
      · rw [if_pos h3, if_pos h3]
      · rw [if_neg h3, if_neg h3]
        by_cases h4 : i < 4096
        · rw [if_pos ⟨Nat.zero_le i, by omega⟩, if_pos h4, Nat.sub_zero]
        · rw [if_neg (by omega), if_neg h4]
          rfl

/-- The staged directory block is the directory block outside slot `slot`. -/
theorem staged_dir_block_other (dir_block : Block) (slot new_inum : Nat) (filename : List Nat)
    (t k : Nat) (ht : t < 128) (hne : t ≠ slot) (hk : k < 32) :
    staged_dir_block dir_block slot new_inum filename (t * 32 + k) = dir_block (t * 32 + k) := by
  rw [staged_dir_block_apply, if_neg (by omega), if_neg (by omega), if_neg (by omega),
    if_pos (by omega)]

/-- A 32-bit field is read from four bytes only. -/
theorem le32_congr (a b : Block) (off1 off2 : Nat)
    (h : ∀ c, c < 4 → a (off1 + c) = b (off2 + c)) : le32 a off1 = le32 b off2 := by
  have h0 := h 0 (by omega)
  have h1 := h 1 (by omega)
  have h2 := h 2 (by omega)
  have h3 := h 3 (by omega)
  simp only [Nat.add_zero] at h0
  unfold le32 byte
  rw [h0, h1, h2, h3]

/-- The inode field of the staged slot. -/
theorem staged_dir_block_inode (dir_block : Block) (slot new_inum : Nat) (filename : List Nat) :
    dirent_inode (staged_dir_block dir_block slot new_inum filename) slot = new_inum % U32 := by
  have e : dirent_inode (staged_dir_block dir_block slot new_inum filename) slot
      = le32 (store32 dir_block (slot * 32) new_inum) (slot * 32) := by
    refine le32_congr _ _ (slot * 32) (slot * 32) (fun c hc => ?_)
    rw [staged_dir_block_apply, if_neg (by omega), if_neg (by omega), if_pos (by omega)]
    show _ = (if slot * 32 ≤ slot * 32 + c ∧ slot * 32 + c < slot * 32 + 4
      then le_bytes (new_inum % U32) (slot * 32 + c - slot * 32) else dir_block (slot * 32 + c))
    rw [if_pos (by omega)]
  rw [e, le32_store32]

/-- The name field of the staged slot: the name, then NULs. -/
theorem staged_dir_block_name (dir_block : Block) (slot new_inum : Nat) (filename : List Nat)
    (hlen : strlen filename < NAME_LEN) (j : Nat) (hj : j < 28) :
    byte (dirent_name (staged_dir_block dir_block slot new_inum filename) slot) j =
      if j < strlen filename then byte (cstr filename) j else 0 := by
  have hl : strlen filename < 28 := hlen
  show staged_dir_block dir_block slot new_inum filename (slot * 32 + 4 + j) % 256 = _
  rw [staged_dir_block_apply]
  by_cases h27 : j = 27
  · rw [if_pos (by omega), if_neg (by omega)]
  · rw [if_neg (by omega), if_pos (by omega)]
    have e : slot * 32 + 4 + j - (slot * 32 + 4) = j := by omega
    rw [e]
    by_cases hjl : j < strlen filename
    · rw [if_pos hjl]
      unfold byte
      rw [Nat.mod_mod]
    · rw [if_neg hjl]

/-- Claim C21: when the checks of `do_create` pass, the directory buffer it
hands to the journal is the root directory block in every slot but the
chosen one, which is the lowest slot whose inode field is zero; in that slot
the inode field is `new_inum` and the name field holds the bytes of the name
followed by NULs up to byte 27. -/
theorem staged_dir_block_layout (sb : superblock) (img : Image) (filename : List Nat)
    (now slot new_inum : Nat) (h : create_checks_pass sb img filename slot new_inum) :
    (∃ bm ibn ib, do_create sb img filename now =
      write_to_journal sb img bm ibn ib (inode_direct (read_inode sb img 0) 0)
        (staged_dir_block (root_dir_block sb img) slot new_inum filename)) ∧
    (slot < 128 ∧ dirent_inode (root_dir_block sb img) slot = 0 ∧
      ∀ t, t < slot → dirent_inode (root_dir_block sb img) t ≠ 0) ∧
    (∀ t k, t < 128 → t ≠ slot → k < 32 →
      staged_dir_block (root_dir_block sb img) slot new_inum filename (t * 32 + k)
        = root_dir_block sb img (t * 32 + k)) ∧
    dirent_inode (staged_dir_block (root_dir_block sb img) slot new_inum filename) slot
      = new_inum ∧
    (∀ j, j < 28 →
      byte (dirent_name (staged_dir_block (root_dir_block sb img) slot new_inum filename) slot) j
        = if j < strlen filename then byte (cstr filename) j else 0) := by
  refine ⟨⟨_, _, _, do_create_staged sb img filename now slot new_inum h⟩,
    create_checks_pass_slot sb img filename slot new_inum h,
    fun t k ht hne hk => staged_dir_block_other _ _ _ _ t k ht hne hk, ?_,
    fun j hj => staged_dir_block_name _ _ _ _ h.1 j hj⟩
  rw [staged_dir_block_inode]
  have hn := (create_checks_pass_inum sb img filename slot new_inum h).2.1
  exact Nat.mod_eq_of_lt (by show new_inum < 4294967296; omega)

theorem staged_dir_block_layout_witness :
    create_checks_pass sample_sb (sample_image clean_journal) hello 0 1 ∧
    dirent_inode (staged_dir_block (root_dir_block sample_sb (sample_image clean_journal))
      0 1 hello) 0 = 1 ∧
    (∀ j, j < 28 →
      byte (dirent_name (staged_dir_block (root_dir_block sample_sb (sample_image clean_journal))
        0 1 hello) 0) j = if j < strlen hello then byte (cstr hello) j else 0) :=
  ⟨by decide,
    (staged_dir_block_layout sample_sb (sample_image clean_journal) hello 0 0 1
      (by decide)).2.2.2.1,
    (staged_dir_block_layout sample_sb (sample_image clean_journal) hello 0 0 1
      (by decide)).2.2.2.2⟩

theorem le16_congr (a b : Block) (off1 off2 : Nat)
    (h : ∀ c, c < 2 → a (off1 + c) = b (off2 + c)) : le16 a off1 = le16 b off2 := by
  have h0 := h 0 (by omega)
  have h1 := h 1 (by omega)
  simp only [Nat.add_zero] at h0
  unfold le16 byte
  rw [h0, h1]

theorem le32_store32_other (b : Block) (off1 off2 v : Nat)
    (h : off2 + 4 ≤ off1 ∨ off1 + 4 ≤ off2) :
    le32 (store32 b off1 v) off2 = le32 b off2 := by
  refine le32_congr _ _ off2 off2 (fun c hc => ?_)
  show (if off1 ≤ off2 + c ∧ off2 + c < off1 + 4 then _ else b (off2 + c)) = _
  rw [if_neg (by omega)]

theorem new_file_inode_type (now : Nat) : inode_type (new_file_inode now) = 1 := by
  simp [new_file_inode, store32, store16, memcpy, memset, le_bytes, zero_block, inode_type,
    le16, byte]

theorem new_file_inode_links (now : Nat) : inode_links (new_file_inode now) = 1 := by
  simp [new_file_inode, store32, store16, memcpy, memset, le_bytes, zero_block, inode_links,
    le16, byte]

theorem new_file_inode_size (now : Nat) : inode_size (new_file_inode now) = 0 := by
  simp [new_file_inode, store32, store16, memcpy, memset, le_bytes, zero_block, inode_size,
    le32, byte]

/-- The bytes of the new inode that no field assignment touches are zero. -/
theorem new_file_inode_zero (now k : Nat) (hk : (8 ≤ k ∧ k < 40) ∨ 48 ≤ k) :
    new_file_inode now k = 0 := by
  show (if 44 ≤ k ∧ k < 44 + 4 then _ else if 40 ≤ k ∧ k < 40 + 4 then _ else
    if 4 ≤ k ∧ k < 4 + 4 then _ else if 2 ≤ k ∧ k < 2 + 2 then _ else
    if 0 ≤ k ∧ k < 0 + 2 then _ else
    if 0 ≤ k ∧ k < 0 + sizeof_inode then 0 % 256 else zero_block k) = 0
  rw [if_neg (by omega), if_neg (by omega), if_neg (by omega), if_neg (by omega),
    if_neg (by omega)]
  by_cases h : 0 ≤ k ∧ k < 0 + sizeof_inode
  · rw [if_pos h]
  · rw [if_neg h]; rfl

theorem new_file_inode_direct (now j : Nat) (hj : j < 8) :
    inode_direct (new_file_inode now) j = 0 := by
  unfold inode_direct
  rw [le32_eq_zero_iff]
  unfold byte
  rw [new_file_inode_zero now _ (by omega), new_file_inode_zero now _ (by omega),
    new_file_inode_zero now _ (by omega), new_file_inode_zero now _ (by omega)]
  exact ⟨rfl, rfl, rfl, rfl⟩

theorem new_file_inode_times (now : Nat) :
    inode_ctime (new_file_inode now) = now % U32 ∧
    inode_mtime (new_file_inode now) = now % U32 := by
  have e1 : ∀ X : Block, inode_ctime (store32 X 40 (now % U32)) = now % U32 := by
    intro X
    show le32 (store32 X 40 (now % U32)) 40 = _
    rw [le32_store32, Nat.mod_mod]
  constructor
  · show le32 (store32 _ 44 _) 40 = _
    rw [le32_store32_other _ _ _ _ (by omega)]
    exact e1 _
  · show le32 (store32 _ 44 _) 44 = _
    rw [le32_store32, e1, Nat.mod_mod]

/-- The slot of the staged inode block that holds the new inode. -/
theorem staged_inode_block_slot (sb : superblock) (img : Image) (n now k : Nat) (hk : k < 128) :
    offset_ptr (staged_inode_block sb img n now) ((n % 32) * 128) k = new_file_inode now k := by
  show (if (n % 32) * 128 ≤ (n % 32) * 128 + k ∧ (n % 32) * 128 + k < (n % 32) * 128 + 128
    then new_file_inode now ((n % 32) * 128 + k - (n % 32) * 128)
    else img ((sb.inode_start + n / 32) % U32) ((n % 32) * 128 + k)) = _
  rw [if_pos ⟨by omega, by omega⟩, Nat.add_sub_cancel_left]

/-- The other slots of the staged inode block. -/
theorem staged_inode_block_other (sb : superblock) (img : Image) (n now t k : Nat)
    (_ht : t < 32) (hne : t ≠ n % 32) (hk : k < 128) :
    staged_inode_block sb img n now (t * 128 + k)
      = img ((sb.inode_start + n / 32) % U32) (t * 128 + k) := by
  show (if (n % 32) * 128 ≤ t * 128 + k ∧ t * 128 + k < (n % 32) * 128 + 128
    then new_file_inode now (t * 128 + k - (n % 32) * 128)
    else img ((sb.inode_start + n / 32) % U32) (t * 128 + k)) = _
  rw [if_neg (by omega)]

/-- Claim C22: when the checks of `do_create` pass, the inode buffer it hands
to the journal is block `inode_start + new_inum / 32` of the image (the block
number being a `uint32_t`) in every 128-byte slot but slot `new_inum % 32`,
and that slot holds an inode with type 1, one link, size 0, eight zero direct
pointers, `ctime` equal to `mtime`, and zero padding. -/
theorem staged_inode_block_layout (sb : superblock) (img : Image) (filename : List Nat)
    (now slot new_inum : Nat) (h : create_checks_pass sb img filename slot new_inum) :
    (∃ bm rdb db, do_create sb img filename now =
      write_to_journal sb img bm ((sb.inode_start + new_inum / 32) % U32)
        (staged_inode_block sb img new_inum now) rdb db) ∧
    (∀ t k, t < 32 → t ≠ new_inum % 32 → k < 128 →
      staged_inode_block sb img new_inum now (t * 128 + k)
        = img ((sb.inode_start + new_inum / 32) % U32) (t * 128 + k)) ∧
    (sb.inode_start + new_inum / 32 < U32 → ∀ t k, t < 32 → t ≠ new_inum % 32 → k < 128 →
      staged_inode_block sb img new_inum now (t * 128 + k)
        = img (sb.inode_start + new_inum / 32) (t * 128 + k)) ∧
    inode_type (offset_ptr (staged_inode_block sb img new_inum now) ((new_inum % 32) * 128)) = 1 ∧
    inode_links (offset_ptr (staged_inode_block sb img new_inum now) ((new_inum % 32) * 128)) = 1 ∧
    inode_size (offset_ptr (staged_inode_block sb img new_inum now) ((new_inum % 32) * 128)) = 0 ∧
    (∀ j, j < 8 → inode_direct
      (offset_ptr (staged_inode_block sb img new_inum now) ((new_inum % 32) * 128)) j = 0) ∧
    inode_ctime (offset_ptr (staged_inode_block sb img new_inum now) ((new_inum % 32) * 128))
      = inode_mtime (offset_ptr (staged_inode_block sb img new_inum now) ((new_inum % 32) * 128)) ∧
    inode_ctime (offset_ptr (staged_inode_block sb img new_inum now) ((new_inum % 32) * 128))
      = now % U32 ∧
    (∀ k, 48 ≤ k → k < 128 →
      byte (offset_ptr (staged_inode_block sb img new_inum now) ((new_inum % 32) * 128)) k = 0) := by
  have hs := staged_inode_block_slot sb img new_inum now
  have f16 : ∀ off, off + 2 ≤ 128 →
      le16 (offset_ptr (staged_inode_block sb img new_inum now) ((new_inum % 32) * 128)) off
        = le16 (new_file_inode now) off :=
    fun off ho => le16_congr _ _ off off (fun c hc => hs (off + c) (by omega))
  have f32 : ∀ off, off + 4 ≤ 128 →
      le32 (offset_ptr (staged_inode_block sb img new_inum now) ((new_inum % 32) * 128)) off
        = le32 (new_file_inode now) off :=
    fun off ho => le32_congr _ _ off off (fun c hc => hs (off + c) (by omega))
  have ht := new_file_inode_times now
  refine ⟨⟨_, _, _, do_create_staged sb img filename now slot new_inum h⟩,
    fun t k ht hne hk => staged_inode_block_other sb img new_inum now t k ht hne hk,
    fun hlt t k ht hne hk => ?_, ?_, ?_, ?_, fun j hj => ?_, ?_, ?_, fun k h48 hk => ?_⟩
  · rw [staged_inode_block_other sb img new_inum now t k ht hne hk, Nat.mod_eq_of_lt hlt]
  · exact (f16 0 (by omega)).trans (new_file_inode_type now)
  · exact (f16 2 (by omega)).trans (new_file_inode_links now)
  · exact (f32 4 (by omega)).trans (new_file_inode_size now)
  · exact (f32 (8 + 4 * j) (by omega)).trans (new_file_inode_direct now j hj)
  · exact ((f32 40 (by omega)).trans ht.1).trans ((f32 44 (by omega)).trans ht.2).symm
  · exact (f32 40 (by omega)).trans ht.1
  · unfold byte
    rw [hs k hk, new_file_inode_zero now k (Or.inr h48)]

theorem staged_inode_block_layout_witness :
    create_checks_pass sample_sb (sample_image clean_journal) hello 0 1 ∧
    inode_type (offset_ptr (staged_inode_block sample_sb (sample_image clean_journal) 1 1700000000)
      ((1 % 32) * 128)) = 1 ∧
    inode_ctime (offset_ptr (staged_inode_block sample_sb (sample_image clean_journal) 1 1700000000)
      ((1 % 32) * 128)) = 1700000000 % U32 :=
  ⟨by decide,
    (staged_inode_block_layout sample_sb (sample_image clean_journal) hello 1700000000 0 1
      (by decide)).2.2.2.1,
    (staged_inode_block_layout sample_sb (sample_image clean_journal) hello 1700000000 0 1
      (by decide)).2.2.2.2.2.2.2.2.1⟩

theorem check_bit_set_bit_self (bitmap : Block) (i : Nat) :
    check_bit (set_bit bitmap i) i = 1 := by
  rw [check_bit_eq_one_iff, byte_set_bit, if_pos rfl,
    testBit_set_byte _ _ _ (Nat.mod_lt i (by decide))]
  simp

theorem check_bit_set_bit_other (bitmap : Block) (i j : Nat) (hne : j ≠ i) :
    check_bit (set_bit bitmap i) j = check_bit bitmap j := by
  have key : (check_bit (set_bit bitmap i) j = 1 ↔ check_bit bitmap j = 1) := by
    rw [check_bit_eq_one_iff, check_bit_eq_one_iff, byte_set_bit]
    by_cases hb : j / 8 = i / 8
    · rw [if_pos hb, testBit_set_byte _ _ _ (Nat.mod_lt j (by decide)), hb]
      have hk : i % 8 ≠ j % 8 := by omega
      simp [hk]
    · rw [if_neg hb]
  rcases check_bit_zero_or_one (set_bit bitmap i) j with a | a <;>
    rcases check_bit_zero_or_one bitmap j with b | b
  · rw [a, b]
  · exact absurd (key.mpr b) (by rw [a]; decide)
  · exact absurd (key.mp a) (by rw [b]; decide)
  · rw [a, b]

/-- The copy of the bitmap that `do_create` modifies reads as the bitmap. -/
theorem check_bit_copy (bitmap : Block) (j : Nat) (hj : j < 32768) :
    check_bit (memcpy zero_block 0 bitmap BLOCK_SIZE) j = check_bit bitmap j := by
  have e : byte (memcpy zero_block 0 bitmap BLOCK_SIZE) (j / 8) = byte bitmap (j / 8) := by
    show (if 0 ≤ j / 8 ∧ j / 8 < 0 + 4096 then bitmap (j / 8 - 0) else zero_block (j / 8)) % 256 = _
    rw [if_pos ⟨Nat.zero_le _, by omega⟩, Nat.sub_zero]
    rfl
  unfold check_bit
  simp only [e]

theorem staged_inode_bitmap_self (bitmap : Block) (n : Nat) :
    check_bit (staged_inode_bitmap bitmap n) n = 1 :=
  check_bit_set_bit_self _ n

theorem staged_inode_bitmap_other (bitmap : Block) (n j : Nat) (hj : j < 32768) (hne : j ≠ n) :
    check_bit (staged_inode_bitmap bitmap n) j = check_bit bitmap j :=
  (check_bit_set_bit_other _ n j hne).trans (check_bit_copy bitmap j hj)

/-- Setting a clear bit raises the count of set bits by one once the count
runs past that bit. -/
theorem used_inodes_staged (bitmap : Block) (n : Nat) (hz : check_bit bitmap n = 0) :
    ∀ N, N ≤ 32768 →
      used_inodes (staged_inode_bitmap bitmap n) N
        = used_inodes bitmap N + (if n < N then 1 else 0) := by
  intro N
  induction N with
  | zero =>
    intro _
    rfl
  | succ N ih =>
    intro hN
    have step : ∀ b : Block,
        used_inodes b (N + 1) = used_inodes b N + (if check_bit b N ≠ 0 then 1 else 0) :=
      fun _ => rfl
    rw [step, step, ih (by omega)]
    by_cases hn : N = n
    · have e1 : (if n < N then (1 : Nat) else 0) = 0 := if_neg (by omega)
      have e2 : (if n < N + 1 then (1 : Nat) else 0) = 1 := if_pos (by omega)
      have e3 : (if check_bit (staged_inode_bitmap bitmap n) N ≠ 0 then (1 : Nat) else 0) = 1 := by
        rw [hn, staged_inode_bitmap_self]
        rfl
      have e4 : (if check_bit bitmap N ≠ 0 then (1 : Nat) else 0) = 0 := by
        rw [hn, hz]
        rfl
      rw [e1, e2, e3, e4]
    · rw [staged_inode_bitmap_other bitmap n N (by omega) hn]
      by_cases hlt : n < N
      · have e1 : (if n < N then (1 : Nat) else 0) = 1 := if_pos hlt
        have e2 : (if n < N + 1 then (1 : Nat) else 0) = 1 := if_pos (by omega)
        rw [e1, e2]
        omega
      · have e1 : (if n < N then (1 : Nat) else 0) = 0 := if_neg hlt
        have e2 : (if n < N + 1 then (1 : Nat) else 0) = 0 := if_neg (by omega)
        rw [e1, e2]
        omega

/-- Claim C23: when the checks of `do_create` pass, `new_inum` is the smallest
index below `inode_count` whose bit is clear in the inode bitmap on disk, and
the bitmap buffer handed to the journal has bit `new_inum` set and every other
bit as on disk: it has exactly one more set bit. -/
theorem staged_inode_bitmap_one_more_bit (sb : superblock) (img : Image) (filename : List Nat)
    (now slot new_inum : Nat) (h : create_checks_pass sb img filename slot new_inum) :
    (∃ ibn ib rdb db, do_create sb img filename now =
      write_to_journal sb img (staged_inode_bitmap (img sb.inode_bitmap) new_inum)
        ibn ib rdb db) ∧
    (new_inum < sb.inode_count ∧ check_bit (img sb.inode_bitmap) new_inum = 0 ∧
      ∀ j, j < new_inum → check_bit (img sb.inode_bitmap) j = 1) ∧
    check_bit (staged_inode_bitmap (img sb.inode_bitmap) new_inum) new_inum = 1 ∧
    (∀ j, j < 32768 → j ≠ new_inum →
      check_bit (staged_inode_bitmap (img sb.inode_bitmap) new_inum) j
        = check_bit (img sb.inode_bitmap) j) ∧
    used_inodes (staged_inode_bitmap (img sb.inode_bitmap) new_inum) 32768
      = used_inodes (img sb.inode_bitmap) 32768 + 1 := by
  obtain ⟨h1, h2, h3, h4⟩ := create_checks_pass_inum sb img filename slot new_inum h
  refine ⟨⟨_, _, _, _, do_create_staged sb img filename now slot new_inum h⟩, ⟨h1, h3, h4⟩,
    staged_inode_bitmap_self _ _, fun j hj hne => staged_inode_bitmap_other _ _ j hj hne, ?_⟩
  rw [used_inodes_staged _ _ h3 32768 (Nat.le_refl _), if_pos h2]

theorem staged_inode_bitmap_one_more_bit_witness :
    create_checks_pass sample_sb (sample_image clean_journal) hello 0 1 ∧
    check_bit (staged_inode_bitmap (sample_image clean_journal sample_sb.inode_bitmap) 1) 1 = 1 ∧
    used_inodes (staged_inode_bitmap (sample_image clean_journal sample_sb.inode_bitmap) 1) 32768
      = used_inodes (sample_image clean_journal sample_sb.inode_bitmap) 32768 + 1 :=
  ⟨by decide,
    (staged_inode_bitmap_one_more_bit sample_sb (sample_image clean_journal) hello 0 0 1
      (by decide)).2.2.1,
    (staged_inode_bitmap_one_more_bit sample_sb (sample_image clean_journal) hello 0 0 1
      (by decide)).2.2.2.2⟩

/-! ## The staged directory block and name lookup -/

theorem field_string_congr (a b : Block) :
    ∀ (n k : Nat), (∀ j, j < n → byte a (k + j) = byte b (k + j)) →
      field_string a n k = field_string b n k := by
  intro n
  induction n with
  | zero => intro k _; rfl
  | succ n ih =>
    intro k h
    have h0 := h 0 (by omega)
    rw [Nat.add_zero] at h0
    rw [field_string, field_string, h0, ih (k + 1) (fun j hj => by
      have e : k + 1 + j = k + (j + 1) := by omega
      rw [e]
      exact h (j + 1) (by omega))]

/-- A slot matches a name shorter than 28 bytes exactly when it is in use and
its name field, read up to its first NUL, is the name. -/
theorem name_match_iff_field (dir_block : Block) (name : List Nat) (t : Nat)
    (hlen : strlen name < NAME_LEN) :
    strncmp_name_match dir_block name t ↔
      dirent_inode dir_block t ≠ 0 ∧
      field_string (dirent_name dir_block t) NAME_LEN 0 = cstr_bytes name := by
  have e := strncmp_name_eq_zero_iff (dirent_name dir_block t) name
  unfold strncmp at e
  rw [strncmp_from_eq_zero_iff_field_string, field_string_cstr name NAME_LEN (by omega)] at e
  unfold strncmp_name_match
  rw [e]

/-- The name field of the staged slot reads as the name. -/
theorem staged_field_self (dir_block : Block) (slot new_inum : Nat) (name : List Nat)
    (hlen : strlen name < NAME_LEN) :
    field_string (dirent_name (staged_dir_block dir_block slot new_inum name) slot) NAME_LEN 0
      = cstr_bytes name := by
  have hl : strlen name < 28 := hlen
  have e := strncmp_name_eq_zero_iff
    (dirent_name (staged_dir_block dir_block slot new_inum name) slot) name
  unfold strncmp at e
  rw [strncmp_from_eq_zero_iff_field_string, field_string_cstr name NAME_LEN (by omega)] at e
  refine e.mpr ⟨fun j hj => ?_, fun _ => ?_⟩
  · rw [staged_dir_block_name _ _ _ _ hlen j (by omega), if_pos (by omega)]
  · rw [staged_dir_block_name _ _ _ _ hlen (strlen name) hl, if_neg (Nat.lt_irrefl _)]

theorem staged_field_other (dir_block : Block) (slot new_inum : Nat) (name : List Nat)
    (t : Nat) (ht : t < 128) (hne : t ≠ slot) :
    field_string (dirent_name (staged_dir_block dir_block slot new_inum name) t) NAME_LEN 0
      = field_string (dirent_name dir_block t) NAME_LEN 0 := by
  refine field_string_congr _ _ NAME_LEN 0 (fun j hj => ?_)
  have hj2 : j < 28 := hj
  show staged_dir_block dir_block slot new_inum name (t * 32 + 4 + (0 + j)) % 256
    = dir_block (t * 32 + 4 + (0 + j)) % 256
  have e : t * 32 + 4 + (0 + j) = t * 32 + (4 + j) := by omega
  rw [e, staged_dir_block_other _ _ _ _ t (4 + j) ht hne (by omega)]

theorem staged_inode_other (dir_block : Block) (slot new_inum : Nat) (name : List Nat)
    (t : Nat) (ht : t < 128) (hne : t ≠ slot) :
    dirent_inode (staged_dir_block dir_block slot new_inum name) t = dirent_inode dir_block t := by
  refine le32_congr _ _ (t * 32) (t * 32) (fun c hc => ?_)
  exact staged_dir_block_other _ _ _ _ t c ht hne (by omega)

/-- A free slot reported by `find_free_dirent_slot` is one of the 128 slots. -/
theorem free_slot_lt (dir_block : Block) (slot : Nat)
    (hs : find_free_dirent_slot dir_block = (slot : Int)) : slot < 128 := by
  have hs2 : scan_free_dirent dir_block DIRENTS_PER_BLOCK 0 = (slot : Int) := hs
  rcases scan_free_dirent_spec dir_block DIRENTS_PER_BLOCK 0 with
    ⟨e, _⟩ | ⟨m, _, hm2, e, _, _⟩
  · rw [e] at hs2
    exact absurd hs2 (by omega)
  · rw [e] at hs2
    have hm : m < 0 + 128 := hm2
    omega

/-- A name that `find_dirent_by_name` does not find is the name of no slot in use. -/
theorem not_found_no_match (dir_block : Block) (name : List Nat)
    (hnf : find_dirent_by_name dir_block name < 0) (t : Nat) (ht : t < 128) :
    ¬ strncmp_name_match dir_block name t := by
  intro hm
  have := (find_dirent_by_name_nonneg_iff dir_block name).mpr ⟨t, ht, hm⟩
  omega

/-- In the staged directory block the name is found at the staged slot. -/
theorem find_in_staged (dir_block : Block) (name : List Nat) (slot new_inum : Nat)
    (hlen : strlen name < NAME_LEN) (hnf : find_dirent_by_name dir_block name < 0)
    (hs : slot < 128) (hn1 : 1 ≤ new_inum) (hn2 : new_inum < U32) :
    find_dirent_by_name (staged_dir_block dir_block slot new_inum name) name = (slot : Int) := by
  have hself : strncmp_name_match (staged_dir_block dir_block slot new_inum name) name slot := by
    rw [name_match_iff_field _ _ _ hlen, staged_dir_block_inode, Nat.mod_eq_of_lt hn2]
    exact ⟨by omega, staged_field_self _ _ _ _ hlen⟩
  have hother : ∀ t, t < 128 → t ≠ slot →
      ¬ strncmp_name_match (staged_dir_block dir_block slot new_inum name) name t := by
    intro t ht hne hm
    rw [name_match_iff_field _ _ _ hlen, staged_inode_other _ _ _ _ t ht hne,
      staged_field_other _ _ _ _ t ht hne, ← name_match_iff_field _ _ _ hlen] at hm
    exact not_found_no_match dir_block name hnf t ht hm
  rcases scan_dirent_by_name_spec (staged_dir_block dir_block slot new_inum name) name
      DIRENTS_PER_BLOCK 0 with ⟨_, hall⟩ | ⟨m, _, hm2, e, hz, _⟩
  · exact absurd hself (hall slot (Nat.zero_le _) (by show slot < 0 + 128; omega))
  · have hm : m < 0 + 128 := hm2
    have em : m = slot := by
      by_contra hne
      exact hother m (by omega) hne hz
    have e2 : find_dirent_by_name (staged_dir_block dir_block slot new_inum name) name
        = (m : Int) := e
    rw [e2, em]

/-- Claim C24: for a name shorter than 28 bytes that `find_dirent_by_name`
does not find in a directory block, the free slot `s` that
`find_free_dirent_slot` returns and a 32-bit inode number `n` of at least 1,
`find_dirent_by_name` returns `s` on the directory buffer `do_create` stages;
so on an image whose root directory block is that buffer `do_create` of the
same name fails with AlreadyExists. -/
theorem staged_name_found_at_slot (dir_block : Block) (name : List Nat) (s n : Nat)
    (hlen : strlen name < NAME_LEN) (hnf : find_dirent_by_name dir_block name < 0)
    (hs : find_free_dirent_slot dir_block = (s : Int)) (hn1 : 1 ≤ n) (hn2 : n < U32) :
    find_dirent_by_name (staged_dir_block dir_block s n name) name = (s : Int) ∧
    ∀ (sb : superblock) (img : Image) (now : Nat),
      inode_type (read_inode sb img 0) = 2 →
      root_dir_block sb img = staged_dir_block dir_block s n name →
      do_create sb img name now = .returned (-1) .AlreadyExists img := by
  have hfind := find_in_staged dir_block name s n hlen hnf (free_slot_lt dir_block s hs) hn1 hn2
  refine ⟨hfind, fun sb img now hroot hdir => ?_⟩
  have hf : find_dirent_by_name (img (inode_direct (read_inode sb img 0) 0)) name = (s : Int) := by
    have e : img (inode_direct (read_inode sb img 0) 0) = staged_dir_block dir_block s n name :=
      hdir
    rw [e]
    exact hfind
  rcases do_create_tree sb img name now with
    ⟨h1, _⟩ | ⟨_, h2, _⟩ | ⟨_, _, _, e⟩ | ⟨_, _, h3, _⟩
  · exact absurd hlen (by omega)
  · exact absurd hroot h2
  · exact e
  · rw [hf] at h3
    exact absurd h3 (by omega)

theorem staged_name_found_at_slot_witness :
    strlen hello < NAME_LEN ∧ find_dirent_by_name zero_block hello < 0 ∧
    find_free_dirent_slot zero_block = ((0 : Nat) : Int) ∧ 1 ≤ 1 ∧ 1 < U32 ∧
    find_dirent_by_name (staged_dir_block zero_block 0 1 hello) hello = ((0 : Nat) : Int) ∧
    do_create sample_sb (image_after_create clean_journal) hello 0
      = .returned (-1) .AlreadyExists (image_after_create clean_journal) :=
  ⟨by decide, by decide, by decide, by decide, by decide,
    (staged_name_found_at_slot zero_block hello 0 1 (by decide) (by decide) (by decide)
      (by decide) (by decide)).1,
    (staged_name_found_at_slot zero_block hello 0 1 (by decide) (by decide) (by decide)
      (by decide) (by decide)).2 sample_sb (image_after_create clean_journal) 0 (by decide) rfl⟩

/-- Claim C25: if no two entries in use of the root directory block have names
that the 28-byte `strncmp` finds equal, then neither have two entries in use of
the directory buffer `do_create` stages for a name that passed its checks. -/
theorem staged_names_unique (dir_block : Block) (name : List Nat) (s n : Nat)
    (hlen : strlen name < NAME_LEN) (hnf : find_dirent_by_name dir_block name < 0)
    (_hs : find_free_dirent_slot dir_block = (s : Int))
    (hu : names_unique dir_block) :
    names_unique (staged_dir_block dir_block s n name) := by
  have hfield : ∀ (b : Block) (t1 t2 : Nat),
      strncmp (dirent_name b t1) (dirent_name b t2) NAME_LEN = 0 ↔
        field_string (dirent_name b t1) NAME_LEN 0 = field_string (dirent_name b t2) NAME_LEN 0 :=
    fun b t1 t2 => strncmp_from_eq_zero_iff_field_string _ _ NAME_LEN 0
  have hnew : ∀ t, t < 128 → t ≠ s →
      dirent_inode (staged_dir_block dir_block s n name) t ≠ 0 →
      field_string (dirent_name (staged_dir_block dir_block s n name) t) NAME_LEN 0
        ≠ cstr_bytes name := by
    intro t ht hne hi hf
    rw [staged_inode_other _ _ _ _ t ht hne] at hi
    rw [staged_field_other _ _ _ _ t ht hne] at hf
    exact not_found_no_match dir_block name hnf t ht
      ((name_match_iff_field dir_block name t hlen).mpr ⟨hi, hf⟩)
  intro t1 h1 t2 h2 hne hi1 hi2 hcmp
  have h1' : t1 < 128 := h1
  have h2' : t2 < 128 := h2
  rw [hfield] at hcmp
  by_cases e1 : t1 = s
  · by_cases e2 : t2 = s
    · exact hne (e1.trans e2.symm)
    · rw [e1, staged_field_self _ _ _ _ hlen] at hcmp
      exact hnew t2 h2' e2 hi2 hcmp.symm
  · by_cases e2 : t2 = s
    · rw [e2, staged_field_self _ _ _ _ hlen] at hcmp
      exact hnew t1 h1' e1 hi1 hcmp
    · rw [staged_field_other _ _ _ _ t1 h1' e1, staged_field_other _ _ _ _ t2 h2' e2,
        ← hfield] at hcmp
      rw [staged_inode_other _ _ _ _ t1 h1' e1] at hi1
      rw [staged_inode_other _ _ _ _ t2 h2' e2] at hi2
      exact hu t1 h1 t2 h2 hne hi1 hi2 hcmp

set_option maxRecDepth 100000 in
theorem staged_names_unique_witness :
    strlen notes < NAME_LEN ∧ find_dirent_by_name two_entry_dir notes < 0 ∧
    find_free_dirent_slot two_entry_dir = ((2 : Nat) : Int) ∧
    names_unique two_entry_dir ∧
    names_unique (staged_dir_block two_entry_dir 2 3 notes) :=
  have hu : names_unique two_entry_dir := by decide
  ⟨by decide, by decide, by decide, hu,
    staged_names_unique two_entry_dir notes 2 3 (by decide) (by decide) (by decide) hu⟩

/-! ## The two commands as the code has them -/

/-- A scan over more bits than the bitmap holds, all of them set, reads past the bitmap. -/
theorem scan_free_bit_overrun (bitmap : Block)
    (hall : ∀ j, j < 32768 → check_bit bitmap j = 1) :
    ∀ (remaining i : Nat), i ≤ 32768 → 32768 < i + remaining →
      scan_free_bit bitmap remaining i = none := by
  intro remaining
  induction remaining with
  | zero =>
    intro i h1 h2
    exact absurd h2 (by omega)
  | succ n ih =>
    intro i h1 h2
    rw [scan_free_bit]
    by_cases hb : BLOCK_SIZE ≤ i / 8
    · exact if_pos hb
    · have hi : i < 32768 := by
        have : ¬ 4096 ≤ i / 8 := hb
        omega
      rw [if_neg hb, if_neg (by rw [hall i hi]; decide)]
      exact ih (i + 1) (by omega) (by omega)

theorem full_bitmap_all_set (j : Nat) : check_bit full_bitmap j = 1 := by
  rw [check_bit_eq_one_iff]
  have h8 : ∀ k, k < 8 → Nat.testBit 255 k = true := by decide
  exact h8 (j % 8) (Nat.mod_lt j (by decide))

/-- A scan for a free inode that leaves the bitmap leaves `do_create` without
defined behaviour. -/
theorem do_create_scan_overrun (sb : superblock) (img : Image) (filename : List Nat) (now : Nat)
    (hlen : strlen filename < NAME_LEN)
    (hroot : inode_type (read_inode sb img 0) = 2)
    (hname : find_dirent_by_name (img (inode_direct (read_inode sb img 0) 0)) filename < 0)
    (hslot : 0 ≤ find_free_dirent_slot (img (inode_direct (read_inode sb img 0) 0)))
    (hino : find_free_inode sb (img sb.inode_bitmap) = none) :
    do_create sb img filename now = .undefined := by
  unfold do_create
  simp only [read_bitmap_block, read_block_raw]
  rw [if_neg (by omega), if_neg (not_not.mpr hroot), if_neg (by omega), if_neg (by omega), hino]

/-- When the scan for a free inode stays inside the bitmap, `do_create` returns
-1 with a message other than the success message, and leaves the image alone. -/
theorem do_create_returns (sb : superblock) (img : Image) (filename : List Nat) (now : Nat)
    (r : Int) (hino : find_free_inode sb (img sb.inode_bitmap) = some r) :
    ∃ s, do_create sb img filename now = .returned (-1) s img ∧ s ≠ .Success := by
  rcases do_create_tree sb img filename now with
    ⟨_, e⟩ | ⟨_, _, e⟩ | ⟨_, _, _, e⟩ | ⟨h1, h2, h3, _⟩
  · exact ⟨_, e, by decide⟩
  · exact ⟨_, e, by decide⟩
  · exact ⟨_, e, by decide⟩
  · by_cases h4 : find_free_dirent_slot (img (inode_direct (read_inode sb img 0) 0)) < 0
    · refine ⟨.DirFull, ?_, by decide⟩
      unfold do_create
      simp only [read_bitmap_block, read_block_raw]
      rw [if_neg (by omega), if_neg (not_not.mpr h2), if_neg (by omega), if_pos h4]
    · by_cases h5 : r < 0
      · refine ⟨.NoFreeInode, ?_, by decide⟩
        unfold do_create
        simp only [read_bitmap_block, read_block_raw]
        rw [if_neg (by omega), if_neg (not_not.mpr h2), if_neg (by omega), if_neg h4, hino]
        simp only
        rw [if_pos h5]
      · rw [do_create_checks_passed sb img filename now r h1 h2 h3 (by omega) hino (by omega)]
        rcases write_to_journal_fails sb img
          (staged_inode_bitmap (img sb.inode_bitmap) r.toNat)
          ((sb.inode_start + r.toNat / (BLOCK_SIZE / sizeof_inode)) % U32)
          (staged_inode_block sb img r.toNat now)
          (inode_direct (read_inode sb img 0) 0)
          (staged_dir_block (img (inode_direct (read_inode sb img 0) 0))
            (find_free_dirent_slot (img (inode_direct (read_inode sb img 0) 0))).toNat
            r.toNat filename) with w | w
        · exact ⟨_, w, by decide⟩
        · exact ⟨_, w, by decide⟩

/-- A scan for a free inode over at most 32768 bits returns. -/
theorem find_free_inode_returns (sb : superblock) (bitmap : Block)
    (hc : sb.inode_count ≤ 32768) : ∃ r, find_free_inode sb bitmap = some r := by
  rcases scan_free_bit_spec bitmap sb.inode_count 0
      (by show 0 + sb.inode_count ≤ 32768; omega) with ⟨e, _⟩ | ⟨m, _, _, e, _, _⟩
  · exact ⟨_, e⟩
  · exact ⟨_, e⟩

/-- Claim C26 as stated fails on a superblock whose `inode_count` exceeds the
32768 bits of a bitmap block.  With every bit of the bitmap set and the
earlier checks passed, the scan for a free inode reads `inode_bitmap[4096]`,
past the buffer: the call has no defined behaviour and no return value. -/
theorem do_create_oversized_inode_count_undefined :
    oversized_sb.inode_count = 32769 ∧
    (∀ j, j < 32768 →
      check_bit (full_bitmap_image clean_journal oversized_sb.inode_bitmap) j = 1) ∧
    do_create oversized_sb (full_bitmap_image clean_journal) hello 0 = .undefined ∧
    (do_create oversized_sb (full_bitmap_image clean_journal) hello 0).code ≠ some (-1) := by
  have hall : ∀ j, j < 32768 →
      check_bit (full_bitmap_image clean_journal oversized_sb.inode_bitmap) j = 1 :=
    fun j _ => full_bitmap_all_set j
  have hnone : find_free_inode oversized_sb
      (full_bitmap_image clean_journal oversized_sb.inode_bitmap) = none :=
    scan_free_bit_overrun _ hall 32769 0 (by omega) (by omega)
  have e : do_create oversized_sb (full_bitmap_image clean_journal) hello 0 = .undefined :=
    do_create_scan_overrun _ _ _ _ (by decide) (by decide) (by decide) (by decide) hnone
  refine ⟨rfl, hall, e, ?_⟩
  rw [e]
  simp [Outcome.code]

/-- Claim C26, amended: for every superblock with `inode_count` at most 32768,
every image and every filename, `do_create` returns -1 and never reports
success; when all its checks pass and the journal magic is right, it resets
`nbytes_used` to `sizeof(struct journal_header)`, which is 4096, and the first
`append_data_record` fails its capacity test, leaving header and image as they
were, so that `do_create` ends on "Journal full" with the image untouched. -/
theorem do_create_always_fails (sb : superblock) (img : Image) (filename : List Nat) (now : Nat)
    (hc : sb.inode_count ≤ 32768) :
    (∃ s, do_create sb img filename now = .returned (-1) s img ∧ s ≠ .Success) ∧
    (do_create sb img filename now).code ≠ some 0 ∧
    (∀ slot new_inum, create_checks_pass sb img filename slot new_inum →
      jh_magic (read_journal_header sb img) = JOURNAL_MAGIC →
      jh_nbytes_used (jh_set_nbytes_used (read_journal_header sb img) sizeof_journal_header)
        = 4096 ∧
      (4096 + sizeof_data_record) % U32 > BLOCK_SIZE ∧
      append_data_record sb (jh_set_nbytes_used (read_journal_header sb img) sizeof_journal_header)
        img sb.inode_bitmap (staged_inode_bitmap (img sb.inode_bitmap) new_inum)
        = .ret (-1) (jh_set_nbytes_used (read_journal_header sb img) sizeof_journal_header) img ∧
      do_create sb img filename now = .returned (-1) .JournalFull img) := by
  obtain ⟨r, hr⟩ := find_free_inode_returns sb (img sb.inode_bitmap) hc
  refine ⟨do_create_returns sb img filename now r hr, do_create_code_ne_zero sb img filename now,
    fun slot new_inum hp hm => ⟨?_, by decide, append_data_record_after_reset _ _ _ _ _, ?_⟩⟩
  · exact (jh_nbytes_used_set _ _).trans (by decide)
  · rw [do_create_staged sb img filename now slot new_inum hp]
    exact write_to_journal_good_magic _ _ _ _ _ _ _ hm

theorem do_create_always_fails_witness :
    sample_sb.inode_count ≤ 32768 ∧
    create_checks_pass sample_sb (sample_image clean_journal) hello 0 1 ∧
    jh_magic (read_journal_header sample_sb (sample_image clean_journal)) = JOURNAL_MAGIC ∧
    (∃ s, do_create sample_sb (sample_image clean_journal) hello 0
      = .returned (-1) s (sample_image clean_journal) ∧ s ≠ .Success) ∧
    do_create sample_sb (sample_image clean_journal) hello 0
      = .returned (-1) .JournalFull (sample_image clean_journal) :=
  ⟨by decide, by decide, by decide,
    (do_create_always_fails sample_sb (sample_image clean_journal) hello 0 (by decide)).1,
    ((do_create_always_fails sample_sb (sample_image clean_journal) hello 0 (by decide)).2.2
      0 1 (by decide) (by decide)).2.2.2⟩

/-- Claim C27: on every image whose journal block has the JRNL magic and
`nbytes_used` at most 4096, `do_install` returns 0 with "Journal is empty" and
leaves the image as it found it, whatever follows byte 8 of the journal block:
its emptiness test compares with `sizeof(struct journal_header)`, which is 4096. -/
theorem do_install_empty_up_to_block_size (sb : superblock) (img : Image)
    (hm : jh_magic (img sb.journal_block) = JOURNAL_MAGIC)
    (hn : jh_nbytes_used (img sb.journal_block) ≤ 4096) :
    sizeof_journal_header = 4096 ∧
    ∃ img1, do_install sb img = .returned 0 .Empty img1 ∧ ∀ n, img1 n = img n :=
  ⟨rfl, img, do_install_within_header sb img hm hn, fun _ => rfl⟩

theorem do_install_empty_up_to_block_size_witness :
    jh_magic (sample_image staged_journal sample_sb.journal_block) = JOURNAL_MAGIC ∧
    jh_nbytes_used (sample_image staged_journal sample_sb.journal_block) ≤ 4096 ∧
    rec_type (sample_image staged_journal sample_sb.journal_block) 8 = REC_DATA ∧
    sizeof_journal_header = 4096 ∧
    ∃ img1, do_install sample_sb (sample_image staged_journal) = .returned 0 .Empty img1 ∧
      ∀ n, img1 n = sample_image staged_journal n :=
  ⟨by decide, by decide, by decide,
    do_install_empty_up_to_block_size sample_sb (sample_image staged_journal)
      (by decide) (by decide)⟩

end Journal
